import Mathlib

/-!
Verification of the value-operation layer of an operational-transformation
library (`src/jot/values.js`: the `NO_OP`, `SET` and `MATH` operations).

Modelling conventions for the shallow embedding:

* JavaScript numbers are modelled as exact rationals (`ℚ`).  Floating-point
  rounding is not modelled; arithmetic (`add`, `mult`) is exact.
* JavaScript bitwise operators (`&`, `|`, `^`, `~`) coerce their arguments
  with `ToInt32` (truncate toward zero, wrap modulo 2^32, reinterpret as a
  signed 32-bit value).  They are modelled exactly that way, via the 32-bit
  bit pattern of the value (`toU32` / `ofU32` below).
* JavaScript `%` on numbers is the truncated remainder; for integer
  arguments it is `Int.tmod` (no 32-bit wrapping).
* A thrown JavaScript `Error` is modelled as `Option.none` (for `apply`)
  or as `Except.error ()` (for operations that can also return `null`,
  where `null` is modelled as `Option.none` inside `Except.ok`).
* Operand shapes outside the data model (for example a string operand to
  `add`), which in JavaScript lead to `NaN`s or type coercions, are not
  modelled in detail; they are mapped to an error/no-result.  Every theorem
  below that depends on an operand constrains it with the well-formedness
  predicate taken from the specification's data model.
-/

/-- A document value: number, boolean, string (list of UTF-16 units,
modelled as characters) or array.  Objects and `null` do not occur in the
claims about the value layer and are omitted. -/
inductive Doc : Type where
  | num (q : ℚ)
  | bool (b : Bool)
  | str (s : List Char)
  | arr (elems : List Doc)

/- Structural equality of documents; this is what the `deep-equal` module
(with `strict: true`) computes on the modelled value universe. -/
mutual
def Doc.beq : Doc → Doc → Bool
  | .num a, .num b => a == b
  | .bool a, .bool b => a == b
  | .str a, .str b => a == b
  | .arr a, .arr b => Doc.beqList a b
  | _, _ => false
def Doc.beqList : List Doc → List Doc → Bool
  | [], [] => true
  | a :: as, b :: bs => Doc.beq a b && Doc.beqList as bs
  | _, _ => false
end

mutual
theorem Doc.beq_iff : ∀ a b : Doc, Doc.beq a b = true ↔ a = b
  | .num a, .num b => by simp [Doc.beq]
  | .num _, .bool _ => by simp [Doc.beq]
  | .num _, .str _ => by simp [Doc.beq]
  | .num _, .arr _ => by simp [Doc.beq]
  | .bool _, .num _ => by simp [Doc.beq]
  | .bool a, .bool b => by simp [Doc.beq]
  | .bool _, .str _ => by simp [Doc.beq]
  | .bool _, .arr _ => by simp [Doc.beq]
  | .str _, .num _ => by simp [Doc.beq]
  | .str _, .bool _ => by simp [Doc.beq]
  | .str a, .str b => by simp [Doc.beq]
  | .str _, .arr _ => by simp [Doc.beq]
  | .arr _, .num _ => by simp [Doc.beq]
  | .arr _, .bool _ => by simp [Doc.beq]
  | .arr _, .str _ => by simp [Doc.beq]
  | .arr a, .arr b => by
      have h := Doc.beqList_iff a b
      simp [Doc.beq, h]
theorem Doc.beqList_iff : ∀ as bs : List Doc, Doc.beqList as bs = true ↔ as = bs
  | [], [] => by simp [Doc.beqList]
  | [], _ :: _ => by simp [Doc.beqList]
  | _ :: _, [] => by simp [Doc.beqList]
  | a :: as, b :: bs => by
      have h1 := Doc.beq_iff a b
      have h2 := Doc.beqList_iff as bs
      simp [Doc.beqList, h1, h2]
end

instance : DecidableEq Doc := fun a b => decidable_of_iff _ (Doc.beq_iff a b)

instance {e a : Type} [DecidableEq e] [DecidableEq a] : DecidableEq (Except e a) := fun x y =>
  match x, y with
  | .ok v, .ok w => if h : v = w then .isTrue (by rw [h]) else .isFalse (by simp [h])
  | .error v, .error w => if h : v = w then .isTrue (by rw [h]) else .isFalse (by simp [h])
  | .ok _, .error _ => .isFalse (by simp)
  | .error _, .ok _ => .isFalse (by simp)

/-- The recognized `MATH` operator strings. -/
inductive MathOperator : Type where
  | add | mult | rot | and | or | xor | not
deriving DecidableEq

/-- The value-layer operations of `values.js`.  `MATH` stores its operand
as a document value, as the JavaScript object does. -/
inductive Op : Type where
  | NO_OP : Op
  | SET (new_value : Doc) : Op
  | MATH (operator : MathOperator) (operand : Doc) : Op
deriving DecidableEq

/-! ## The total order on documents (spec-modelled)

`jot.cmp` lives in `index.js`, which is not under `src/`.  Modelled from
the spec (§4.3): a total, deterministic order comparing by type rank
(`bool < number < string < array`), then by numeric/lexicographic order
within the type. -/

def cmpLin {α : Type} [LinearOrder α] (a b : α) : Ordering :=
  if a < b then .lt else if b < a then .gt else .eq

def cmpCharList : List Char → List Char → Ordering
  | [], [] => .eq
  | [], _ :: _ => .lt
  | _ :: _, [] => .gt
  | a :: as, b :: bs =>
    match cmpLin a b with
    | .eq => cmpCharList as bs
    | o => o

mutual
def cmpDoc : Doc → Doc → Ordering
  | .bool a, .bool b => cmpLin a b
  | .bool _, .num _ => .lt
  | .bool _, .str _ => .lt
  | .bool _, .arr _ => .lt
  | .num _, .bool _ => .gt
  | .num a, .num b => cmpLin a b
  | .num _, .str _ => .lt
  | .num _, .arr _ => .lt
  | .str _, .bool _ => .gt
  | .str _, .num _ => .gt
  | .str a, .str b => cmpCharList a b
  | .str _, .arr _ => .lt
  | .arr _, .bool _ => .gt
  | .arr _, .num _ => .gt
  | .arr _, .str _ => .gt
  | .arr a, .arr b => cmpDocList a b
def cmpDocList : List Doc → List Doc → Ordering
  | [], [] => .eq
  | [], _ :: _ => .lt
  | _ :: _, [] => .gt
  | a :: as, b :: bs =>
    match cmpDoc a b with
    | .eq => cmpDocList as bs
    | o => o
end

/-! ## 32-bit bit patterns (JavaScript `ToInt32`) -/

/-- The `ToInt32` bit pattern of a number: truncate toward zero, wrap
modulo 2^32. -/
def toU32 (q : ℚ) : ℕ := ((q.num.tdiv (q.den : ℤ)) % (4294967296 : ℤ)).toNat

/-- Reinterpret a 32-bit pattern as a signed 32-bit value (a rational). -/
def ofU32 (u : ℕ) : ℚ :=
  ((if u < 2147483648 then (u : ℤ) else (u : ℤ) - 4294967296 : ℤ) : ℚ)

def mask32 : ℕ := 4294967295

/-- JavaScript `a & b` on numbers. -/
def jsAnd (a b : ℚ) : ℚ := ofU32 (toU32 a &&& toU32 b)
/-- JavaScript `a | b` on numbers. -/
def jsOr (a b : ℚ) : ℚ := ofU32 (toU32 a ||| toU32 b)
/-- JavaScript `a ^ b` on numbers. -/
def jsXor (a b : ℚ) : ℚ := ofU32 (toU32 a ^^^ toU32 b)
/-- JavaScript `~a` on numbers. -/
def jsNot (a : ℚ) : ℚ := ofU32 (toU32 a ^^^ mask32)

/-- The `ToInt32` pattern of a document used as a bitwise argument.
Strings and arrays also coerce in JavaScript but lie outside the data
model of the value layer; they are not modelled. -/
def bitArg : Doc → Option ℕ
  | .num k => some (toU32 k)
  | .bool b => some (if b then 1 else 0)
  | _ => none

/-! ## The operations -/

/-- `MATH.prototype.apply` (values.js:251-287).  `none` models a thrown
`Error`.  Operand shapes outside the data model (spec §3) — for example a
string operand to `add`, for which JavaScript would produce `NaN`s — are
mapped to `none` as well; every theorem that uses an operand constrains it
by `operandWf`. -/
def mathApply (operator : MathOperator) (operand : Doc) (document : Doc) : Option Doc :=
  match document with
  | .num d =>
    match operator with
    | .add =>
      match operand with
      | .num k => some (.num (d + k))
      | _ => none
    | .mult =>
      match operand with
      | .num k => some (.num (d * k))
      | _ => none
    | .rot =>
      if d.den = 1 then
        match operand with
        | .arr (.num k :: .num m :: _) =>
          -- `(document + operand[0]) % operand[1]`: `%` on integers is the
          -- truncated remainder.  Non-integer parts or a zero modulus give
          -- `NaN`s in JavaScript and are outside the data model.
          if k.den = 1 ∧ m.den = 1 ∧ m ≠ 0 then
            some (.num (((d.num + k.num).tmod m.num : ℤ) : ℚ))
          else none
        | _ => none
      else none
    | .and =>
      if d.den = 1 then (bitArg operand).map fun v => .num (ofU32 (toU32 d &&& v))
      else none
    | .or =>
      if d.den = 1 then (bitArg operand).map fun v => .num (ofU32 (toU32 d ||| v))
      else none
    | .xor =>
      if d.den = 1 then (bitArg operand).map fun v => .num (ofU32 (toU32 d ^^^ v))
      else none
    | .not =>
      if d.den = 1 then some (.num (jsNot d)) else none
  | .bool b =>
    match operator with
    | .and => some (if b then operand else .bool false) -- JS `document && operand`
    | .or => some (if b then .bool true else operand)   -- JS `document || operand`
    | .xor =>
      -- JS `!!(document ^ operand)`
      (bitArg operand).map fun v => .bool (decide (((if b then (1 : ℕ) else 0) ^^^ v) ≠ 0))
    | .not => some (.bool (!b))
    | _ => none
  | _ => none

/-- `apply` of a value operation (`NO_OP`/`SET`/`MATH`); `none` models a
thrown `Error`. -/
def Op.apply : Op → Doc → Option Doc
  | .NO_OP, document => some document
  | .SET v, _ => some v
  | .MATH operator operand, document => mathApply operator operand document

/-- `simplify` (values.js:106-110, 157-162, 289-312).  The JavaScript
loose comparisons `operand == 0` / `== 1` also match operand shapes
outside the data model (for example `add false`); those are not modelled. -/
def Op.simplify : Op → Op
  | .MATH .add (.num k) => if k = 0 then .NO_OP else .MATH .add (.num k)
  | .MATH .rot (.arr (.num k :: rest)) =>
    if k = 0 then .NO_OP
    else
      match rest with
      | .num m :: _ =>
        if k.den = 1 ∧ m.den = 1 then
          .MATH .rot (.arr [.num ((k.num.tmod m.num : ℤ) : ℚ), .num m])
        else .MATH .rot (.arr (.num k :: rest)) -- float operands: outside the data model
      | _ => .MATH .rot (.arr (.num k :: rest)) -- malformed operand: outside the data model
  | .MATH .mult (.num k) => if k = 1 then .NO_OP else .MATH .mult (.num k)
  | .MATH .and (.num k) => if k = 0 then .SET (.num 0) else .MATH .and (.num k)
  | .MATH .and (.bool false) => .SET (.bool false)
  | .MATH .or (.num k) => if k = 0 then .NO_OP else .MATH .or (.num k)
  | .MATH .or (.bool false) => .NO_OP
  | .MATH .xor (.num k) => if k = 0 then .NO_OP else .MATH .xor (.num k)
  | .MATH .xor (.bool false) => .NO_OP -- JS loose equality: `false == 0`
  | op => op

/-- `inverse` (values.js:112-116, 164-168, 314-333).  For `and`/`or` the
returned operand is the bitwise value `document & ~operand` resp.
`~document & operand`, a number even when the inputs are booleans. -/
def Op.inverse : Op → Doc → Option Op
  | .NO_OP, _ => some .NO_OP
  | .SET _, document => some (.SET document)
  | .MATH .add (.num k), _ => some (.MATH .add (.num (-k)))
  | .MATH .rot (.arr (.num k :: .num m :: _)), _ =>
    some (.MATH .rot (.arr [.num (-k), .num m]))
  | .MATH .mult (.num k), _ =>
    some (.MATH .mult (.num k⁻¹)) -- JS `1.0/k`; `Infinity` at `k = 0` is not modelled
  | .MATH .and operand, document =>
    (bitArg document).bind fun u => (bitArg operand).map fun v =>
      .MATH .or (.num (ofU32 (u &&& (v ^^^ mask32))))
  | .MATH .or operand, document =>
    (bitArg document).bind fun u => (bitArg operand).map fun v =>
      .MATH .xor (.num (ofU32 ((u ^^^ mask32) &&& v)))
  | .MATH .xor operand, _ => some (.MATH .xor operand)
  | .MATH .not operand, _ => some (.MATH .not operand)
  | .MATH _ _, _ => none -- operand shapes outside the data model

/-- The Math-with-Math case of `atomic_compose` (values.js:335-388). -/
def mathCompose (o₁ : MathOperator) (k₁ : Doc) (o₂ : MathOperator) (k₂ : Doc) : Option Op :=
  match o₁, k₁, o₂, k₂ with
  | .add, .num a, .add, .num b => some (Op.simplify (.MATH .add (.num (a + b))))
  | .rot, .arr (.num a :: .num m₁ :: _), .rot, .arr (.num b :: .num m₂ :: _) =>
    if m₁ = m₂ then some (Op.simplify (.MATH .rot (.arr [.num (a + b), .num m₁])))
    else none
  | .mult, .num a, .mult, .num b => some (Op.simplify (.MATH .mult (.num (a * b))))
  | .and, .num a, .and, .num b => some (Op.simplify (.MATH .and (.num (jsAnd a b))))
  | .and, .bool a, .and, .bool b => some (Op.simplify (.MATH .and (.bool (a && b))))
  | .or, .num a, .or, .num b => some (Op.simplify (.MATH .or (.num (jsOr a b))))
  | .or, .bool a, .or, .bool b => some (Op.simplify (.MATH .or (.bool (a || b))))
  | .xor, .num a, .xor, .num b => some (Op.simplify (.MATH .xor (.num (jsXor a b))))
  | .xor, .bool a, .xor, .bool b => some (Op.simplify (.MATH .xor (.bool (a != b))))
  | .not, _, .not, _ => some .NO_OP
  | .and, a, .or, b =>
    -- `this.operand === other.operand`: strict equality; on the primitive
    -- operands of the data model this is structural equality.
    if a = b then some (.SET a) else none
  | .or, .num a, .xor, .num b => if a = b then some (.MATH .and (.num (jsNot a))) else none
  | .or, .bool a, .xor, .bool b => if a = b then some (.MATH .and (.bool (!a))) else none
  | _, _, _, _ => none

/-- `atomic_compose` (values.js:118-123, 170-177, 335-388).  `.error ()`
models a thrown `Error` (SET's version applies `other` to its value, which
can throw); `.ok none` models the `null` no-fusion answer. -/
def Op.atomic_compose : Op → Op → Except Unit (Option Op)
  | .NO_OP, other => .ok (some other)
  | .SET v, other =>
    match other.apply v with
    | some w => .ok (some (Op.simplify (.SET w)))
    | none => .error ()
  | .MATH o₁ k₁, .MATH o₂ k₂ => .ok (mathCompose o₁ k₁ o₂ k₂)
  | .MATH _ _, _ => .ok none

/-- Modelled from the spec: `BaseOperation.compose` (in `index.js`, not
under `src/`) returns `atomic_compose` when non-null and otherwise a
`LIST` of the two operations, whose `apply` is sequential application
(spec §2, §6).  Only its application behaviour is needed, for the
Math-with-Math rebase. -/
def composeApplyMath (o₁ : MathOperator) (k₁ : Doc) (o₂ : MathOperator) (k₂ : Doc)
    (d : Doc) : Option Doc :=
  match mathCompose o₁ k₁ o₂ k₂ with
  | some c => c.apply d
  | none => (mathApply o₁ k₁ d).bind (mathApply o₂ k₂)

/-- The `conflictless` argument: absent/false, bare `true`, or an object
carrying the prior document state (`{document: d}`). -/
inductive Cfl : Type where
  | strict
  | basic
  | withDoc (document : Doc)
deriving DecidableEq

def Cfl.truthy : Cfl → Bool
  | .strict => false
  | _ => true

def Cfl.doc? : Cfl → Option Doc
  | .withDoc d => some d
  | _ => none

/-- `this.operand[1]`, used by the Math-with-Math rebase to compare rot
moduli (`undefined` when the operand is not an array of length two or
more). -/
def rotMod : Doc → Option Doc
  | .arr (_ :: m :: _) => some m
  | _ => none

/-- Modelled from the spec (§4.3): the order `jot.cmp` gives the
`[operator, operand]` arrays compared by the Math-with-Math rebase —
lexicographic, operator strings first.  The operator ranks below are the
lexicographic order of the seven operator name strings. -/
def MathOperator.rank : MathOperator → ℕ
  | .add => 0
  | .and => 1
  | .mult => 2
  | .not => 3
  | .or => 4
  | .rot => 5
  | .xor => 6

def cmpMathKey (a b : MathOperator × Doc) : Ordering :=
  match cmpLin a.1.rank b.1.rank with
  | .eq => cmpDoc a.2 b.2
  | o => o

/-- The Math-with-Math entry of `MATH.prototype.rebase_functions`
(values.js:393-425), returning the pair `[this-rebased, other-rebased]`;
`.ok none` models `null` (conflict), `.error ()` a thrown `Error` (the
conflictless branch applies the composition to the supplied document,
which can throw). -/
def mathRebaseMath (o₁ : MathOperator) (k₁ : Doc) (o₂ : MathOperator) (k₂ : Doc)
    (c : Cfl) : Except Unit (Option (Op × Op)) :=
  if o₁ = o₂ ∧ (o₁ ≠ .rot ∨ rotMod k₁ = rotMod k₂) then
    .ok (some (.MATH o₁ k₁, .MATH o₂ k₂))
  else
    match c.doc? with
    | some document =>
      if cmpMathKey (o₁, k₁) (o₂, k₂) = .lt then
        match composeApplyMath o₁ k₁ o₂ k₂ document with
        | some v => .ok (some (.SET v, .MATH o₂ k₂))
        | none => .error ()
      else .ok none
    | none => .ok none

/-- The Set-with-Set entry of `SET.prototype.rebase_functions`
(values.js:182-204), returning the pair `[this-rebased, other-rebased]`
or `none` for `null` (conflict). -/
def setRebaseSet (v w : Doc) (c : Cfl) : Option (Op × Op) :=
  if Doc.beq v w then some (.NO_OP, .NO_OP)
  else if c.truthy ∧ cmpDoc v w = .lt then some (.NO_OP, .SET w)
  else none

/-- The Set-with-Math entry of `SET.prototype.rebase_functions`
(values.js:206-215): unconditionally `[this, NO_OP]`. -/
def setRebaseMath (v : Doc) : Op × Op := (.SET v, .NO_OP)

/-- Modelled from the spec (§4.1, §4.3): `BaseOperation.rebase` in
`index.js` (not under `src/`).  `NO_OP` rebases to itself and leaves the
other side unchanged; otherwise the rebase table of the left operand is
consulted, and failing that the converse entry with the result components
swapped.  `.ok none` models `null` (conflict). -/
def rebase (a b : Op) (c : Cfl) : Except Unit (Option Op) :=
  match a, b with
  | .NO_OP, _ => .ok (some .NO_OP)
  | _, .NO_OP => .ok (some a)
  | .SET v, .SET w =>
    match setRebaseSet v w c with
    | some p => .ok (some p.1)
    | none => .ok ((setRebaseSet w v c).map Prod.snd)
  | .SET v, .MATH _ _ => .ok (some (setRebaseMath v).1)
  | .MATH _ _, .SET w => .ok (some (setRebaseMath w).2)
  | .MATH o₁ k₁, .MATH o₂ k₂ =>
    match mathRebaseMath o₁ k₁ o₂ k₂ c with
    | .error _ => .error ()
    | .ok (some p) => .ok (some p.1)
    | .ok none =>
      match mathRebaseMath o₂ k₂ o₁ k₁ c with
      | .error _ => .error ()
      | .ok r => .ok (r.map Prod.snd)

/-- `SET.prototype.decompose_right` (values.js:226-236); `at_new_index` is
taken as a natural number (the routine is used with indices in
`[0, new_value.length]`). -/
def SET.decompose_right (new_value : Doc) (at_new_index : ℕ) : Option (Op × Op) :=
  match new_value with
  | .str s => some (.SET (.str (s.take at_new_index)), .SET (.str (s.drop at_new_index)))
  | .arr xs => some (.SET (.arr (xs.take at_new_index)), .SET (.arr (xs.drop at_new_index)))
  | _ => none

/-! ## Well-formedness and well-typedness -/

/-- Integer in the signed 32-bit range (the domain on which JavaScript
bitwise operators are the identity coercion). -/
def isInt32 (q : ℚ) : Bool :=
  q.den == 1 && -2147483648 ≤ q.num && q.num < 2147483648

/-- Well-formed operand shapes, from the data model (spec §3): `add` and
`mult` take a number, `rot` takes `[increment, modulus]` over non-negative
integers (with positive modulus), `and`/`or`/`xor` take an integer (in
the signed 32-bit range JavaScript bitwise operators act on) or a
boolean, `not` ignores its operand. -/
def operandWf : MathOperator → Doc → Bool
  | .add, .num _ => true
  | .mult, .num _ => true
  | .rot, .arr [.num k, .num m] =>
    k.den == 1 && m.den == 1 && 0 ≤ k.num && 0 < m.num
  | .and, .num k => isInt32 k
  | .or, .num k => isInt32 k
  | .xor, .num k => isInt32 k
  | .and, .bool _ => true
  | .or, .bool _ => true
  | .xor, .bool _ => true
  | .not, _ => true
  | _, _ => false

/-- A well-formed value-layer operation per the data model (spec §3). -/
def Op.wf : Op → Bool
  | .MATH o k => operandWf o k
  | _ => true

/-- Well-typedness of a document for an operation (spec §3, §4.1 and the
doc comment of values.js): `add`/`mult` apply to numbers; `rot` to a
non-negative integer below the modulus; `and`/`or`/`xor` with an integer
operand to integers in the signed 32-bit range JavaScript bitwise
operators act on, and with a boolean operand to booleans; `not` to
either. -/
def wellTyped : Op → Doc → Bool
  | .NO_OP, _ => true
  | .SET _, _ => true
  | .MATH .add _, .num _ => true
  | .MATH .mult _, .num _ => true
  | .MATH .rot (.arr (.num _ :: .num m :: _)), .num q =>
    q.den == 1 && 0 ≤ q.num && q.num < m.num
  | .MATH .and (.num _), .num q => isInt32 q
  | .MATH .or (.num _), .num q => isInt32 q
  | .MATH .xor (.num _), .num q => isInt32 q
  | .MATH .and (.bool _), .bool _ => true
  | .MATH .or (.bool _), .bool _ => true
  | .MATH .xor (.bool _), .bool _ => true
  | .MATH .not _, .num q => isInt32 q
  | .MATH .not _, .bool _ => true
  | _, _ => false

/-- Two documents of the same primitive type (numbers remain numbers,
booleans remain booleans). -/
def Doc.sameType : Doc → Doc → Bool
  | .num _, .num _ => true
  | .bool _, .bool _ => true
  | .str _, .str _ => true
  | .arr _, .arr _ => true
  | _, _ => false

/-- Follows the claim C9's words: the enumerated conditions under which
`MATH.apply` is said to raise — the document is neither a number nor a
boolean, `add`/`mult`/`rot` is applied to a boolean, or
`rot`/`and`/`or`/`xor`/`not` is applied to a non-integer number. -/
def specMathTypeMismatch (o : MathOperator) (d : Doc) : Bool :=
  match d with
  | .num q =>
    decide (q.den ≠ 1) &&
      (match o with
       | .rot | .and | .or | .xor | .not => true
       | _ => false)
  | .bool _ =>
    match o with
    | .add | .mult | .rot => true
    | _ => false
  | _ => true

/-! ## Order lemmas -/

theorem cmpLin_eq_iff {α : Type} [LinearOrder α] {a b : α} : cmpLin a b = .eq ↔ a = b := by
  unfold cmpLin
  rcases lt_trichotomy a b with h | h | h
  · simp [h, ne_of_lt h]
  · subst h
    simp [lt_irrefl]
  · simp [lt_asymm h, h, ne_of_gt h]

theorem cmpLin_swap {α : Type} [LinearOrder α] (a b : α) : cmpLin b a = (cmpLin a b).swap := by
  unfold cmpLin
  rcases lt_trichotomy a b with h | h | h
  · simp [h, lt_asymm h, Ordering.swap]
  · subst h
    simp [lt_irrefl, Ordering.swap]
  · simp [h, lt_asymm h, Ordering.swap]

theorem cmpCharList_eq_iff : ∀ as bs : List Char, cmpCharList as bs = .eq ↔ as = bs
  | [], [] => by simp [cmpCharList]
  | [], _ :: _ => by simp [cmpCharList]
  | _ :: _, [] => by simp [cmpCharList]
  | a :: as, b :: bs => by
    have h1 : cmpLin a b = .eq ↔ a = b := cmpLin_eq_iff
    have h2 := cmpCharList_eq_iff as bs
    cases hc : cmpLin a b with
    | lt =>
      rw [hc] at h1
      simp at h1
      simp [cmpCharList, hc, h1]
    | eq =>
      have hab : a = b := h1.mp hc
      subst hab
      simp [cmpCharList, hc, h2]
    | gt =>
      rw [hc] at h1
      simp at h1
      simp [cmpCharList, hc, h1]

theorem cmpCharList_swap : ∀ as bs : List Char, cmpCharList bs as = (cmpCharList as bs).swap
  | [], [] => by simp [cmpCharList, Ordering.swap]
  | [], _ :: _ => by simp [cmpCharList, Ordering.swap]
  | _ :: _, [] => by simp [cmpCharList, Ordering.swap]
  | a :: as, b :: bs => by
    have h1 := cmpLin_swap a b
    have h2 := cmpCharList_swap as bs
    cases hc : cmpLin a b with
    | lt =>
      rw [hc] at h1
      simp [Ordering.swap] at h1
      simp [cmpCharList, hc, h1, Ordering.swap]
    | eq =>
      rw [hc] at h1
      simp [Ordering.swap] at h1
      simp [cmpCharList, hc, h1, h2]
    | gt =>
      rw [hc] at h1
      simp [Ordering.swap] at h1
      simp [cmpCharList, hc, h1, Ordering.swap]

mutual
theorem cmpDoc_eq_iff : ∀ a b : Doc, cmpDoc a b = .eq ↔ a = b
  | .bool _, .bool _ => by simp [cmpDoc, cmpLin_eq_iff]
  | .bool _, .num _ => by simp [cmpDoc]
  | .bool _, .str _ => by simp [cmpDoc]
  | .bool _, .arr _ => by simp [cmpDoc]
  | .num _, .bool _ => by simp [cmpDoc]
  | .num _, .num _ => by simp [cmpDoc, cmpLin_eq_iff]
  | .num _, .str _ => by simp [cmpDoc]
  | .num _, .arr _ => by simp [cmpDoc]
  | .str _, .bool _ => by simp [cmpDoc]
  | .str _, .num _ => by simp [cmpDoc]
  | .str _, .str _ => by simp [cmpDoc, cmpCharList_eq_iff]
  | .str _, .arr _ => by simp [cmpDoc]
  | .arr _, .bool _ => by simp [cmpDoc]
  | .arr _, .num _ => by simp [cmpDoc]
  | .arr _, .str _ => by simp [cmpDoc]
  | .arr a, .arr b => by
    have h := cmpDocList_eq_iff a b
    simp [cmpDoc, h]
theorem cmpDocList_eq_iff : ∀ as bs : List Doc, cmpDocList as bs = .eq ↔ as = bs
  | [], [] => by simp [cmpDocList]
  | [], _ :: _ => by simp [cmpDocList]
  | _ :: _, [] => by simp [cmpDocList]
  | a :: as, b :: bs => by
    have h1 := cmpDoc_eq_iff a b
    have h2 := cmpDocList_eq_iff as bs
    cases hc : cmpDoc a b with
    | lt =>
      rw [hc] at h1
      simp at h1
      simp [cmpDocList, hc, h1]
    | eq =>
      have hab : a = b := h1.mp hc
      subst hab
      simp [cmpDocList, hc, h2]
    | gt =>
      rw [hc] at h1
      simp at h1
      simp [cmpDocList, hc, h1]
end

mutual
theorem cmpDoc_swap : ∀ a b : Doc, cmpDoc b a = (cmpDoc a b).swap
  | .bool a, .bool b => by simp [cmpDoc, cmpLin_swap a b]
  | .bool _, .num _ => by simp [cmpDoc, Ordering.swap]
  | .bool _, .str _ => by simp [cmpDoc, Ordering.swap]
  | .bool _, .arr _ => by simp [cmpDoc, Ordering.swap]
  | .num _, .bool _ => by simp [cmpDoc, Ordering.swap]
  | .num a, .num b => by simp [cmpDoc, cmpLin_swap a b]
  | .num _, .str _ => by simp [cmpDoc, Ordering.swap]
  | .num _, .arr _ => by simp [cmpDoc, Ordering.swap]
  | .str _, .bool _ => by simp [cmpDoc, Ordering.swap]
  | .str _, .num _ => by simp [cmpDoc, Ordering.swap]
  | .str a, .str b => by simp [cmpDoc, cmpCharList_swap a b]
  | .str _, .arr _ => by simp [cmpDoc, Ordering.swap]
  | .arr _, .bool _ => by simp [cmpDoc, Ordering.swap]
  | .arr _, .num _ => by simp [cmpDoc, Ordering.swap]
  | .arr _, .str _ => by simp [cmpDoc, Ordering.swap]
  | .arr a, .arr b => by
    have h := cmpDocList_swap a b
    simp [cmpDoc, h]
theorem cmpDocList_swap : ∀ as bs : List Doc, cmpDocList bs as = (cmpDocList as bs).swap
  | [], [] => by simp [cmpDocList, Ordering.swap]
  | [], _ :: _ => by simp [cmpDocList, Ordering.swap]
  | _ :: _, [] => by simp [cmpDocList, Ordering.swap]
  | a :: as, b :: bs => by
    have h1 := cmpDoc_swap a b
    have h2 := cmpDocList_swap as bs
    cases hc : cmpDoc a b with
    | lt =>
      rw [hc] at h1
      simp [Ordering.swap] at h1
      simp [cmpDocList, hc, h1, Ordering.swap]
    | eq =>
      rw [hc] at h1
      simp [Ordering.swap] at h1
      simp [cmpDocList, hc, h1, h2]
    | gt =>
      rw [hc] at h1
      simp [Ordering.swap] at h1
      simp [cmpDocList, hc, h1, Ordering.swap]
end

theorem cmpDoc_refl (a : Doc) : cmpDoc a a = .eq := (cmpDoc_eq_iff a a).mpr rfl

theorem cmpDoc_lt_of_not_lt_of_ne {v w : Doc} (hne : v ≠ w)
    (h : ¬ cmpDoc v w = .lt) : cmpDoc w v = .lt := by
  cases hc : cmpDoc v w with
  | lt => exact absurd hc h
  | eq => exact absurd ((cmpDoc_eq_iff v w).mp hc) hne
  | gt =>
    have := cmpDoc_swap v w
    rw [hc] at this
    simpa [Ordering.swap] using this

theorem cmpDoc_gt_of_lt {v w : Doc} (h : cmpDoc v w = .lt) : cmpDoc w v = .gt := by
  have := cmpDoc_swap v w
  rw [h] at this
  simpa [Ordering.swap] using this

theorem rank_inj : ∀ {o₁ o₂ : MathOperator}, o₁.rank = o₂.rank → o₁ = o₂ := by
  intro o₁ o₂
  cases o₁ <;> cases o₂ <;> simp [MathOperator.rank]

theorem cmpMathKey_eq_iff {a b : MathOperator × Doc} : cmpMathKey a b = .eq ↔ a = b := by
  obtain ⟨o₁, k₁⟩ := a
  obtain ⟨o₂, k₂⟩ := b
  unfold cmpMathKey
  cases hc : cmpLin (MathOperator.rank o₁) (MathOperator.rank o₂) with
  | eq =>
    have h1 : o₁ = o₂ := rank_inj (cmpLin_eq_iff.mp hc)
    subst h1
    simp [cmpDoc_eq_iff]
  | lt =>
    have h1 : o₁ ≠ o₂ := by
      intro h
      subst h
      rw [cmpLin_eq_iff.mpr rfl] at hc
      cases hc
    simp [h1]
  | gt =>
    have h1 : o₁ ≠ o₂ := by
      intro h
      subst h
      rw [cmpLin_eq_iff.mpr rfl] at hc
      cases hc
    simp [h1]

theorem cmpMathKey_swap (a b : MathOperator × Doc) :
    cmpMathKey b a = (cmpMathKey a b).swap := by
  obtain ⟨o₁, k₁⟩ := a
  obtain ⟨o₂, k₂⟩ := b
  unfold cmpMathKey
  have h1 := cmpLin_swap (MathOperator.rank o₁) (MathOperator.rank o₂)
  cases hc : cmpLin (MathOperator.rank o₁) (MathOperator.rank o₂) with
  | lt =>
    rw [hc] at h1
    simp [Ordering.swap] at h1
    simp [hc, h1, Ordering.swap]
  | eq =>
    rw [hc] at h1
    simp [Ordering.swap] at h1
    simp [hc, h1, cmpDoc_swap k₁ k₂]
  | gt =>
    rw [hc] at h1
    simp [Ordering.swap] at h1
    simp [hc, h1, Ordering.swap]

theorem cmpMathKey_gt_of_lt {a b : MathOperator × Doc} (h : cmpMathKey a b = .lt) :
    cmpMathKey b a = .gt := by
  have := cmpMathKey_swap a b
  rw [h] at this
  simpa [Ordering.swap] using this

/-! ## 32-bit pattern lemmas -/

theorem toU32_lt_mod (q : ℚ) : toU32 q < 4294967296 := by
  unfold toU32
  have h1 : 0 ≤ (q.num.tdiv (q.den : ℤ)) % 4294967296 :=
    Int.emod_nonneg _ (by norm_num)
  have h2 : (q.num.tdiv (q.den : ℤ)) % 4294967296 < 4294967296 :=
    Int.emod_lt_of_pos _ (by norm_num)
  omega

theorem toU32_lt (q : ℚ) : toU32 q < 2 ^ 32 := by
  have := toU32_lt_mod q
  norm_num at this ⊢
  exact this

theorem toU32_intCast (n : ℤ) : toU32 ((n : ℤ) : ℚ) = (n % 4294967296).toNat := by
  unfold toU32
  simp

theorem toU32_ofU32 {u : ℕ} (h : u < 4294967296) : toU32 (ofU32 u) = u := by
  unfold ofU32
  rw [toU32_intCast]
  split
  · omega
  · omega

theorem ofU32_toU32 {q : ℚ} (hden : q.den = 1) (h1 : -2147483648 ≤ q.num)
    (h2 : q.num < 2147483648) : ofU32 (toU32 q) = q := by
  have hq : (q.num : ℚ) = q := (Rat.den_eq_one_iff q).mp hden
  unfold toU32 ofU32
  rw [hden]
  simp only [Nat.cast_one, Int.tdiv_one]
  have h3 : 0 ≤ q.num % 4294967296 := Int.emod_nonneg _ (by norm_num)
  have h4 : q.num % 4294967296 < 4294967296 := Int.emod_lt_of_pos _ (by norm_num)
  split
  next hlt =>
    have hv : (((q.num % 4294967296).toNat : ℕ) : ℤ) = q.num := by omega
    rw [hv]
    exact hq
  next hge =>
    have hv : (((q.num % 4294967296).toNat : ℕ) : ℤ) - 4294967296 = q.num := by omega
    rw [hv]
    exact hq

theorem u32_eq : (4294967296 : ℕ) = 2 ^ 32 := by norm_num

theorem jsAnd_pat (a b : ℚ) : toU32 (jsAnd a b) = toU32 a &&& toU32 b := by
  unfold jsAnd
  exact toU32_ofU32 (by rw [u32_eq]; exact Nat.and_lt_two_pow _ (toU32_lt b))

theorem jsOr_pat (a b : ℚ) : toU32 (jsOr a b) = toU32 a ||| toU32 b := by
  unfold jsOr
  exact toU32_ofU32 (by rw [u32_eq]; exact Nat.or_lt_two_pow (toU32_lt a) (toU32_lt b))

theorem jsXor_pat (a b : ℚ) : toU32 (jsXor a b) = toU32 a ^^^ toU32 b := by
  unfold jsXor
  exact toU32_ofU32 (by rw [u32_eq]; exact Nat.xor_lt_two_pow (toU32_lt a) (toU32_lt b))

theorem mask32_lt : mask32 < 2 ^ 32 := by norm_num [mask32]

theorem jsNot_pat (a : ℚ) : toU32 (jsNot a) = toU32 a ^^^ mask32 := by
  unfold jsNot
  exact toU32_ofU32 (by rw [u32_eq]; exact Nat.xor_lt_two_pow (toU32_lt a) mask32_lt)

theorem ofU32_inj {u v : ℕ} (hu : u < 4294967296) (hv : v < 4294967296)
    (h : ofU32 u = ofU32 v) : u = v := by
  have := congrArg toU32 h
  rwa [toU32_ofU32 hu, toU32_ofU32 hv] at this

/-! ## Claims -/

/-- C8: For every SET operation `s` and MATH operation `m`, rebasing in
either mode (with or without conflictless) never conflicts: `s` rebased
against `m` is `s` unchanged, and `m` rebased against `s` is `NO_OP`. -/
theorem C8_set_math_rebase (v : Doc) (o : MathOperator) (k : Doc) (c : Cfl) :
    rebase (.SET v) (.MATH o k) c = .ok (some (.SET v)) ∧
    rebase (.MATH o k) (.SET v) c = .ok (some .NO_OP) :=
  ⟨rfl, rfl⟩

/-- C10: `SET.decompose_right(at_new_index)` returns `null` when the new
value is neither a string nor an array; on a string or array with
`0 ≤ at_new_index ≤ length` it returns the two SET operations whose new
values are `slice(0, at_new_index)` and `slice(at_new_index)`, and
concatenating the two parts reconstructs the original new value. -/
theorem C10_decompose_right (v : Doc) (i : ℕ) :
    (∀ q : ℚ, v = .num q → SET.decompose_right v i = none) ∧
    (∀ b : Bool, v = .bool b → SET.decompose_right v i = none) ∧
    (∀ s : List Char, v = .str s → i ≤ s.length →
      SET.decompose_right v i
        = some (.SET (.str (s.take i)), .SET (.str (s.drop i))) ∧
      s.take i ++ s.drop i = s) ∧
    (∀ xs : List Doc, v = .arr xs → i ≤ xs.length →
      SET.decompose_right v i
        = some (.SET (.arr (xs.take i)), .SET (.arr (xs.drop i))) ∧
      xs.take i ++ xs.drop i = xs) := by
  refine ⟨?_, ?_, ?_, ?_⟩
  · rintro q rfl
    rfl
  · rintro b rfl
    rfl
  · rintro s rfl _
    exact ⟨rfl, List.take_append_drop i s⟩
  · rintro xs rfl _
    exact ⟨rfl, List.take_append_drop i xs⟩

theorem C10_decompose_right_witness :
    SET.decompose_right (.str ['a', 'b', 'c']) 1
      = some (.SET (.str ['a']), .SET (.str ['b', 'c'])) ∧
    ['a'] ++ ['b', 'c'] = ['a', 'b', 'c'] :=
  (C10_decompose_right (.str ['a', 'b', 'c']) 1).2.2.1 ['a', 'b', 'c'] rfl (by decide)

/-- C2 (code evaluated at the failing input): the `rot` inverse returned by
the code does not undo the operation.  For the well-typed document `2` and
the operation `rot [2, 3]`, `apply` yields `1`, the code's inverse is
`rot [-2, 3]`, and applying it yields `-1` (JavaScript `%` is the
truncated remainder), not the original document `2`. -/
theorem C2_rot_inverse_fails :
    Op.apply (.MATH .rot (.arr [.num 2, .num 3])) (.num 2) = some (.num 1) ∧
    Op.inverse (.MATH .rot (.arr [.num 2, .num 3])) (.num 2)
      = some (.MATH .rot (.arr [.num (-2), .num 3])) ∧
    Op.apply (.MATH .rot (.arr [.num (-2), .num 3])) (.num 1) = some (.num (-1)) ∧
    Doc.num (-1) ≠ Doc.num 2 := by
  refine ⟨by decide, by decide, by decide, ?_⟩
  simp only [ne_eq, Doc.num.injEq]
  norm_num

/-- C4 counterexample: `atomic_compose` of a MATH operation with `NO_OP`
returns `null` (no fusion), not the MATH operation itself, refuting
`A.atomic_compose(NoOp) == A` at `A = MATH("add", 1)`. -/
theorem C4_math_noop_counterexample :
    Op.atomic_compose (.MATH .add (.num 1)) .NO_OP = .ok none ∧
    (Except.ok none : Except Unit (Option Op)) ≠ .ok (some (.MATH .add (.num 1))) :=
  ⟨rfl, by simp⟩

/-- C4 (amended): `NO_OP` is an identity for `apply` and a left identity
for `atomic_compose`; on the right, `SET.atomic_compose(NoOp)` returns the
SET unchanged but `MATH.atomic_compose(NoOp)` returns `null` (no fusion). -/
theorem C4_noop_identity :
    (∀ d : Doc, Op.apply .NO_OP d = some d) ∧
    (∀ A : Op, Op.atomic_compose .NO_OP A = .ok (some A)) ∧
    (∀ v : Doc, Op.atomic_compose (.SET v) .NO_OP = .ok (some (.SET v))) ∧
    (∀ (o : MathOperator) (k : Doc), Op.atomic_compose (.MATH o k) .NO_OP = .ok none) :=
  ⟨fun _ => rfl, fun _ => rfl, fun _ => rfl, fun _ _ => rfl⟩

/-- C7: SET operations rebased against each other: deep-equal values make
both sides NoOp; different values in conflictless mode make the
lower-ordered one NoOp while the higher survives unchanged; different
values without conflictless mode conflict (null). -/
theorem C7_set_set_rebase (v w : Doc) (c : Cfl) :
    (v = w →
      rebase (.SET v) (.SET w) c = .ok (some .NO_OP) ∧
      rebase (.SET w) (.SET v) c = .ok (some .NO_OP)) ∧
    (v ≠ w → c.truthy = true → cmpDoc v w = .lt →
      rebase (.SET v) (.SET w) c = .ok (some .NO_OP) ∧
      rebase (.SET w) (.SET v) c = .ok (some (.SET w))) ∧
    (v ≠ w → rebase (.SET v) (.SET w) .strict = .ok none) := by
  refine ⟨?_, ?_, ?_⟩
  · rintro rfl
    have hb : Doc.beq v v = true := (Doc.beq_iff v v).mpr rfl
    constructor <;> simp [rebase, setRebaseSet, hb]
  · intro hne htr hlt
    have hb : Doc.beq v w = false := by
      rw [← Bool.not_eq_true]
      simp [Doc.beq_iff, hne]
    have hb2 : Doc.beq w v = false := by
      rw [← Bool.not_eq_true]
      simp [Doc.beq_iff, (Ne.symm hne)]
    have hgt : cmpDoc w v = .gt := cmpDoc_gt_of_lt hlt
    constructor
    · simp [rebase, setRebaseSet, hb, htr, hlt]
    · simp [rebase, setRebaseSet, hb2, hb, htr, hlt, hgt]
  · intro hne
    have hb : Doc.beq v w = false := by
      rw [← Bool.not_eq_true]
      simp [Doc.beq_iff, hne]
    have hb2 : Doc.beq w v = false := by
      rw [← Bool.not_eq_true]
      simp [Doc.beq_iff, (Ne.symm hne)]
    simp [rebase, setRebaseSet, hb, hb2, Cfl.truthy]

theorem C7_set_set_rebase_witness :
    (Doc.num 1 ≠ Doc.num 2) ∧ Cfl.truthy .basic = true ∧
    cmpDoc (.num 1) (.num 2) = .lt ∧
    rebase (.SET (.num 1)) (.SET (.num 2)) .basic = .ok (some .NO_OP) ∧
    rebase (.SET (.num 2)) (.SET (.num 1)) .basic = .ok (some (.SET (.num 2))) := by
  refine ⟨by decide, rfl, by decide, ?_⟩
  exact (C7_set_set_rebase (.num 1) (.num 2) .basic).2.1 (by decide) rfl (by decide)

/-- C6: MATH operations rebased against each other: with the same operator
(and, for `rot`, the same modulus) both sides are unchanged; with
different operators, in conflictless mode with the `document` pre-state,
the side whose `(operator, operand)` key is lower is replaced by
`Set(self.compose(other).apply(document))` while the higher side is
unchanged; with different operators and no conflictless mode the rebase is
a conflict (null). -/
theorem C6_math_math_rebase (o₁ : MathOperator) (k₁ : Doc) (o₂ : MathOperator) (k₂ : Doc) :
    (∀ c : Cfl, o₁ = o₂ → (o₁ = .rot → rotMod k₁ = rotMod k₂) →
      rebase (.MATH o₁ k₁) (.MATH o₂ k₂) c = .ok (some (.MATH o₁ k₁)) ∧
      rebase (.MATH o₂ k₂) (.MATH o₁ k₁) c = .ok (some (.MATH o₂ k₂))) ∧
    (∀ (d : Doc) (v : Doc), o₁ ≠ o₂ → cmpMathKey (o₁, k₁) (o₂, k₂) = .lt →
      composeApplyMath o₁ k₁ o₂ k₂ d = some v →
      rebase (.MATH o₁ k₁) (.MATH o₂ k₂) (.withDoc d) = .ok (some (.SET v)) ∧
      rebase (.MATH o₂ k₂) (.MATH o₁ k₁) (.withDoc d) = .ok (some (.MATH o₂ k₂))) ∧
    (o₁ ≠ o₂ → rebase (.MATH o₁ k₁) (.MATH o₂ k₂) .strict = .ok none) := by
  refine ⟨?_, ?_, ?_⟩
  · intro c h1 h2
    subst h1
    have hcond : o₁ = o₁ ∧ (o₁ ≠ MathOperator.rot ∨ rotMod k₁ = rotMod k₂) := by
      refine ⟨rfl, ?_⟩
      by_cases hr : o₁ = .rot
      · exact Or.inr (h2 hr)
      · exact Or.inl hr
    have hcond2 : o₁ = o₁ ∧ (o₁ ≠ MathOperator.rot ∨ rotMod k₂ = rotMod k₁) := by
      refine ⟨rfl, ?_⟩
      by_cases hr : o₁ = .rot
      · exact Or.inr (h2 hr).symm
      · exact Or.inl hr
    constructor
    · simp [rebase, mathRebaseMath, hcond]
    · simp [rebase, mathRebaseMath, hcond2]
  · intro d v hne hlt hca
    have hc1 : ¬(o₁ = o₂ ∧ (o₁ ≠ MathOperator.rot ∨ rotMod k₁ = rotMod k₂)) :=
      fun h => hne h.1
    have hc2 : ¬(o₂ = o₁ ∧ (o₂ ≠ MathOperator.rot ∨ rotMod k₂ = rotMod k₁)) :=
      fun h => hne h.1.symm
    have hgt : cmpMathKey (o₂, k₂) (o₁, k₁) = .gt := cmpMathKey_gt_of_lt hlt
    constructor
    · simp [rebase, mathRebaseMath, hc1, Cfl.doc?, hlt, hca]
    · simp [rebase, mathRebaseMath, hc1, hc2, Cfl.doc?, hlt, hgt, hca]
  · intro hne
    have hc1 : ¬(o₁ = o₂ ∧ (o₁ ≠ MathOperator.rot ∨ rotMod k₁ = rotMod k₂)) :=
      fun h => hne h.1
    have hc2 : ¬(o₂ = o₁ ∧ (o₂ ≠ MathOperator.rot ∨ rotMod k₂ = rotMod k₁)) :=
      fun h => hne h.1.symm
    simp [rebase, mathRebaseMath, hc1, hc2, Cfl.doc?]

theorem C6_math_math_rebase_witness :
    (MathOperator.and ≠ MathOperator.or) ∧
    cmpMathKey (.and, .num 6) (.or, .num 6) = .lt ∧
    composeApplyMath .and (.num 6) .or (.num 6) (.num 3) = some (.num 6) ∧
    rebase (.MATH .and (.num 6)) (.MATH .or (.num 6)) (.withDoc (.num 3))
      = .ok (some (.SET (.num 6))) ∧
    rebase (.MATH .or (.num 6)) (.MATH .and (.num 6)) (.withDoc (.num 3))
      = .ok (some (.MATH .or (.num 6))) ∧
    rebase (.MATH .and (.num 6)) (.MATH .or (.num 6)) .strict = .ok none ∧
    rebase (.MATH .rot (.arr [.num 1, .num 5])) (.MATH .rot (.arr [.num 2, .num 5])) .strict
      = .ok (some (.MATH .rot (.arr [.num 1, .num 5]))) := by
  refine ⟨by decide, by decide, by decide, ?_, ?_, ?_, ?_⟩
  · exact ((C6_math_math_rebase .and (.num 6) .or (.num 6)).2.1 (.num 3) (.num 6)
      (by decide) (by decide) (by decide)).1
  · exact ((C6_math_math_rebase .and (.num 6) .or (.num 6)).2.1 (.num 3) (.num 6)
      (by decide) (by decide) (by decide)).2
  · exact (C6_math_math_rebase .and (.num 6) .or (.num 6)).2.2 (by decide)
  · exact ((C6_math_math_rebase .rot (.arr [.num 1, .num 5]) .rot (.arr [.num 2, .num 5])).1
      .strict rfl (fun _ => by decide)).1

/-- C9 counterexample: `MATH("or", 1)` is a well-formed operation, applying
it to the boolean document `false` raises no error (none of the claim's
enumerated mismatch conditions holds: `or` on a boolean is not listed),
yet it returns the number `1` — the boolean does not remain a boolean
(JavaScript `false || 1` evaluates to `1`). -/
theorem C9_or_bool_counterexample :
    Op.wf (.MATH .or (.num 1)) = true ∧
    specMathTypeMismatch .or (.bool false) = false ∧
    Op.apply (.MATH .or (.num 1)) (.bool false) = some (.num 1) ∧
    Doc.sameType (.bool false) (.num 1) = false := by
  refine ⟨rfl, rfl, by decide, rfl⟩

/-! ## Shape lemmas for well-formed operands -/

theorem rotOperandShape {k : Doc} (hwf : operandWf .rot k = true) :
    ∃ ki m : ℚ, k = .arr [.num ki, .num m] ∧ ki.den = 1 ∧ m.den = 1 ∧
      0 ≤ ki.num ∧ 0 < m.num := by
  cases k with
  | num q => simp [operandWf] at hwf
  | bool b => simp [operandWf] at hwf
  | str s => simp [operandWf] at hwf
  | arr es =>
    match es with
    | [] => simp [operandWf] at hwf
    | [e1] =>
      cases e1 <;> simp [operandWf] at hwf
    | e1 :: e2 :: rest =>
      cases e1 <;> cases e2 <;> cases rest <;> simp [operandWf] at hwf
      case num.num.nil k m =>
        obtain ⟨⟨⟨h1, h2⟩, h3⟩, h4⟩ := hwf
        exact ⟨k, m, rfl, h1, h2, by simpa using h3, by simpa using h4⟩

theorem bitOperandShape {o : MathOperator} {k : Doc}
    (ho : o = .and ∨ o = .or ∨ o = .xor) (hwf : operandWf o k = true) :
    (∃ q : ℚ, k = .num q ∧ isInt32 q = true) ∨ (∃ b : Bool, k = .bool b) := by
  rcases ho with rfl | rfl | rfl <;> cases k <;> simp only [operandWf] at hwf <;>
    first
    | exact Or.inl ⟨_, rfl, hwf⟩
    | exact Or.inr ⟨_, rfl⟩
    | exact absurd hwf (by simp)

theorem numOperandShape {o : MathOperator} (ho : o = .add ∨ o = .mult) {k : Doc}
    (hwf : operandWf o k = true) : ∃ q : ℚ, k = .num q := by
  rcases ho with rfl | rfl <;> cases k <;> simp [operandWf] at hwf <;> exact ⟨_, rfl⟩

/-- C9 (amended): for a well-formed MATH operation, `apply` raises exactly
under the claim's enumerated type-mismatch conditions; and when it does
not raise and the document is well-typed for the operation (for `and`/`or`
on booleans this requires the operand to be a boolean as well), the result
has the same primitive type as the document. -/
theorem C9_math_apply_typing (o : MathOperator) (k : Doc) (hwf : operandWf o k = true)
    (d : Doc) :
    (Op.apply (.MATH o k) d = none ↔ specMathTypeMismatch o d = true) ∧
    (wellTyped (.MATH o k) d = true →
      ∀ w, Op.apply (.MATH o k) d = some w → Doc.sameType d w = true) := by
  constructor
  · cases o with
    | add =>
      obtain ⟨kq, rfl⟩ := numOperandShape (Or.inl rfl) hwf
      cases d <;> simp [Op.apply, mathApply, specMathTypeMismatch]
    | mult =>
      obtain ⟨kq, rfl⟩ := numOperandShape (Or.inr rfl) hwf
      cases d <;> simp [Op.apply, mathApply, specMathTypeMismatch]
    | rot =>
      obtain ⟨ki, m, rfl, hki, hm, hknn, hmpos⟩ := rotOperandShape hwf
      have hmne : m ≠ 0 := ne_of_gt (Rat.num_pos.mp hmpos)
      cases d with
      | num q =>
        by_cases hq : q.den = 1 <;>
          simp [Op.apply, mathApply, specMathTypeMismatch, hq, hki, hm, hmne]
      | bool b => simp [Op.apply, mathApply, specMathTypeMismatch]
      | str s => simp [Op.apply, mathApply, specMathTypeMismatch]
      | arr es => simp [Op.apply, mathApply, specMathTypeMismatch]
    | and =>
      rcases bitOperandShape (Or.inl rfl) hwf with ⟨kq, rfl, hkden⟩ | ⟨c, rfl⟩ <;>
        cases d <;>
          first
          | (rename_i q
             by_cases hq : q.den = 1 <;>
               simp [Op.apply, mathApply, specMathTypeMismatch, bitArg, hq])
          | simp [Op.apply, mathApply, specMathTypeMismatch, bitArg]
    | or =>
      rcases bitOperandShape (Or.inr (Or.inl rfl)) hwf with ⟨kq, rfl, hkden⟩ | ⟨c, rfl⟩ <;>
        cases d <;>
          first
          | (rename_i q
             by_cases hq : q.den = 1 <;>
               simp [Op.apply, mathApply, specMathTypeMismatch, bitArg, hq])
          | simp [Op.apply, mathApply, specMathTypeMismatch, bitArg]
    | xor =>
      rcases bitOperandShape (Or.inr (Or.inr rfl)) hwf with ⟨kq, rfl, hkden⟩ | ⟨c, rfl⟩ <;>
        cases d <;>
          first
          | (rename_i q
             by_cases hq : q.den = 1 <;>
               simp [Op.apply, mathApply, specMathTypeMismatch, bitArg, hq])
          | simp [Op.apply, mathApply, specMathTypeMismatch, bitArg]
    | not =>
      cases d with
      | num q =>
        by_cases hq : q.den = 1 <;>
          simp [Op.apply, mathApply, specMathTypeMismatch, hq]
      | bool b => simp [Op.apply, mathApply, specMathTypeMismatch]
      | str s => simp [Op.apply, mathApply, specMathTypeMismatch]
      | arr es => simp [Op.apply, mathApply, specMathTypeMismatch]
  · intro hwt w happly
    cases o with
    | add =>
      obtain ⟨kq, rfl⟩ := numOperandShape (Or.inl rfl) hwf
      cases d <;> simp [wellTyped] at hwt <;>
        simp [Op.apply, mathApply] at happly <;> simp [← happly, Doc.sameType]
    | mult =>
      obtain ⟨kq, rfl⟩ := numOperandShape (Or.inr rfl) hwf
      cases d <;> simp [wellTyped] at hwt <;>
        simp [Op.apply, mathApply] at happly <;> simp [← happly, Doc.sameType]
    | rot =>
      obtain ⟨ki, m, rfl, hki, hm, hknn, hmpos⟩ := rotOperandShape hwf
      have hmne : m ≠ 0 := ne_of_gt (Rat.num_pos.mp hmpos)
      cases d <;> simp [wellTyped] at hwt
      rename_i q
      simp [Op.apply, mathApply, hwt.1, hki, hm, hmne] at happly
      simp [← happly, Doc.sameType]
    | and =>
      rcases bitOperandShape (Or.inl rfl) hwf with ⟨kq, rfl, hkden⟩ | ⟨c, rfl⟩ <;>
        cases d <;> simp [wellTyped, isInt32] at hwt
      · rename_i q
        simp [Op.apply, mathApply, hwt.1, bitArg] at happly
        simp [← happly, Doc.sameType]
      · rename_i b
        simp [Op.apply, mathApply] at happly
        cases b <;> simp [← happly, Doc.sameType]
    | or =>
      rcases bitOperandShape (Or.inr (Or.inl rfl)) hwf with ⟨kq, rfl, hkden⟩ | ⟨c, rfl⟩ <;>
        cases d <;> simp [wellTyped, isInt32] at hwt
      · rename_i q
        simp [Op.apply, mathApply, hwt.1, bitArg] at happly
        simp [← happly, Doc.sameType]
      · rename_i b
        simp [Op.apply, mathApply] at happly
        cases b <;> simp [← happly, Doc.sameType]
    | xor =>
      rcases bitOperandShape (Or.inr (Or.inr rfl)) hwf with ⟨kq, rfl, hkden⟩ | ⟨c, rfl⟩ <;>
        cases d <;> simp [wellTyped, isInt32] at hwt
      · rename_i q
        simp [Op.apply, mathApply, hwt.1, bitArg] at happly
        simp [← happly, Doc.sameType]
      · rename_i b
        simp [Op.apply, mathApply, bitArg] at happly
        simp [← happly, Doc.sameType]
    | not =>
      cases d <;> simp [wellTyped, isInt32] at hwt
      · rename_i q
        simp [Op.apply, mathApply, hwt.1] at happly
        simp [← happly, Doc.sameType]
      · simp [Op.apply, mathApply] at happly
        simp [← happly, Doc.sameType]

theorem C9_math_apply_typing_witness :
    operandWf .xor (.num 5) = true ∧
    (Op.apply (.MATH .xor (.num 5)) (.str ['a']) = none ↔
      specMathTypeMismatch .xor (.str ['a']) = true) ∧
    (wellTyped (.MATH .xor (.num 5)) (.num 3) = true) ∧
    Op.apply (.MATH .xor (.num 5)) (.num 3) = some (.num 6) ∧
    Doc.sameType (.num 3) (.num 6) = true := by
  refine ⟨rfl, (C9_math_apply_typing .xor (.num 5) rfl (.str ['a'])).1, by decide, by decide, ?_⟩
  exact (C9_math_apply_typing .xor (.num 5) rfl (.num 3)).2 (by decide) (.num 6) (by decide)

/-! ## Arithmetic helpers -/

theorem toU32_zero : toU32 0 = 0 := by simp [toU32]

theorem ofU32_zero : ofU32 0 = 0 := by simp [ofU32]

theorem tmod_absorb {q ki m : ℤ} (hq : 0 ≤ q) (hki : 0 ≤ ki) (hm : 0 < m) :
    (q + ki.tmod m).tmod m = (q + ki).tmod m := by
  have h1 : ki.tmod m = ki % m := Int.tmod_eq_emod hki hm.le
  have h2 : 0 ≤ ki % m := Int.emod_nonneg ki (ne_of_gt hm)
  rw [h1, Int.tmod_eq_emod (by omega) hm.le, Int.tmod_eq_emod (by omega) hm.le]
  have h3 : q + ki % m = q + ki + m * (-(ki / m)) := by
    rw [Int.emod_def]
    ring
  rw [h3, Int.add_mul_emod_self_left]

theorem simplify_apply (A : Op) (hwf : A.wf = true) (d : Doc)
    (hwt : wellTyped A d = true) :
    Op.apply A.simplify d = Op.apply A d := by
  cases A with
  | NO_OP => rfl
  | SET v => rfl
  | MATH o k =>
    rw [Op.wf] at hwf
    cases o with
    | add =>
      obtain ⟨kq, rfl⟩ := numOperandShape (Or.inl rfl) hwf
      cases d <;> simp [wellTyped] at hwt
      by_cases hk : kq = 0 <;>
        simp [Op.simplify, hk, Op.apply, mathApply]
    | mult =>
      obtain ⟨kq, rfl⟩ := numOperandShape (Or.inr rfl) hwf
      cases d <;> simp [wellTyped] at hwt
      by_cases hk : kq = 1 <;>
        simp [Op.simplify, hk, Op.apply, mathApply]
    | rot =>
      obtain ⟨ki, m, rfl, hki, hm, hknn, hmpos⟩ := rotOperandShape hwf
      have hmne : m ≠ 0 := ne_of_gt (Rat.num_pos.mp hmpos)
      cases d <;> simp [wellTyped] at hwt
      rename_i q
      obtain ⟨⟨hqden, hqnn⟩, hqlt⟩ := hwt
      have hqnn' : 0 ≤ q.num := Rat.num_nonneg.mpr hqnn
      have hq : (q.num : ℚ) = q := (Rat.den_eq_one_iff q).mp hqden
      by_cases hkz : ki = 0
      · subst hkz
        simp [Op.simplify, Op.apply, mathApply, hqden, hki, hm, hmne]
        rw [Int.tmod_eq_of_lt hqnn' hqlt]
        exact hq.symm
      · simp [Op.simplify, hkz, hki, hm, Op.apply, mathApply, hqden, hmne]
        rw [tmod_absorb hqnn' hknn hmpos]
    | and =>
      rcases bitOperandShape (Or.inl rfl) hwf with ⟨kq, rfl, hkden⟩ | ⟨c, rfl⟩
      · cases d <;> simp [wellTyped, isInt32] at hwt
        rename_i q
        by_cases hk : kq = 0
        · subst hk
          simp [Op.simplify, Op.apply, mathApply, hwt.1.1, bitArg, toU32_zero, ofU32_zero]
        · simp [Op.simplify, hk, Op.apply, mathApply]
      · cases d <;> simp [wellTyped] at hwt
        rename_i b
        cases c
        · cases b <;> simp [Op.simplify, Op.apply, mathApply]
        · simp [Op.simplify, Op.apply, mathApply]
    | or =>
      rcases bitOperandShape (Or.inr (Or.inl rfl)) hwf with ⟨kq, rfl, hkden⟩ | ⟨c, rfl⟩
      · cases d <;> simp [wellTyped, isInt32] at hwt
        rename_i q
        by_cases hk : kq = 0
        · subst hk
          simp [Op.simplify, Op.apply, mathApply, hwt.1.1, bitArg, toU32_zero]
          exact (ofU32_toU32 hwt.1.1 hwt.1.2 hwt.2).symm
        · simp [Op.simplify, hk, Op.apply, mathApply]
      · cases d <;> simp [wellTyped] at hwt
        rename_i b
        cases c
        · cases b <;> simp [Op.simplify, Op.apply, mathApply]
        · simp [Op.simplify, Op.apply, mathApply]
    | xor =>
      rcases bitOperandShape (Or.inr (Or.inr rfl)) hwf with ⟨kq, rfl, hkden⟩ | ⟨c, rfl⟩
      · cases d <;> simp [wellTyped, isInt32] at hwt
        rename_i q
        by_cases hk : kq = 0
        · subst hk
          simp [Op.simplify, Op.apply, mathApply, hwt.1.1, bitArg, toU32_zero]
          exact (ofU32_toU32 hwt.1.1 hwt.1.2 hwt.2).symm
        · simp [Op.simplify, hk, Op.apply, mathApply]
      · cases d <;> simp [wellTyped] at hwt
        rename_i b
        cases c
        · cases b <;> simp [Op.simplify, Op.apply, mathApply, bitArg]
        · simp [Op.simplify, Op.apply, mathApply]
    | not =>
      simp [Op.simplify]

/-- C5: simplify preserves semantics — for every well-formed value-layer
operation and well-typed document, `A.simplify().apply(d) == A.apply(d)`;
in particular the MATH collapses (`add 0`, `rot [0,m]`, `mult 1`, `or 0`,
`or false`, `xor 0` to NoOp; `and 0` to `Set(0)`; `and false` to
`Set(false)`; `rot [k,m]` normalized to `rot [k mod m, m]`) are
observationally equivalent. -/
theorem C5_simplify_preserves (A : Op) (hwf : A.wf = true) (d : Doc)
    (hwt : wellTyped A d = true) :
    Op.apply A.simplify d = Op.apply A d :=
  simplify_apply A hwf d hwt

theorem C5_simplify_preserves_witness :
    Op.wf (.MATH .rot (.arr [.num 7, .num 5])) = true ∧
    wellTyped (.MATH .rot (.arr [.num 7, .num 5])) (.num 3) = true ∧
    Op.apply (Op.simplify (.MATH .rot (.arr [.num 7, .num 5]))) (.num 3)
      = Op.apply (.MATH .rot (.arr [.num 7, .num 5])) (.num 3) :=
  ⟨by decide, by decide,
    C5_simplify_preserves (.MATH .rot (.arr [.num 7, .num 5])) (by decide) (.num 3) (by decide)⟩

theorem mask32_eq : mask32 = 2 ^ 32 - 1 := by norm_num [mask32]

theorem ofU32_den (u : ℕ) : (ofU32 u).den = 1 := by
  unfold ofU32
  split <;> exact Rat.den_intCast _

theorem isInt32_ofU32 {u : ℕ} (h : u < 4294967296) : isInt32 (ofU32 u) = true := by
  unfold ofU32 isInt32
  split
  next hlt =>
    rw [Rat.den_intCast, Rat.num_intCast]
    simp only [beq_self_eq_true, Bool.true_and, Bool.and_eq_true, decide_eq_true_eq]
    omega
  next hge =>
    rw [Rat.den_intCast, Rat.num_intCast]
    simp only [beq_self_eq_true, Bool.true_and, Bool.and_eq_true, decide_eq_true_eq]
    omega

theorem nat_or_and_absorb (x y : ℕ) : (x &&& y) ||| y = y := by
  apply Nat.eq_of_testBit_eq
  intro i
  simp only [Nat.testBit_or, Nat.testBit_and]
  cases y.testBit i <;> simp

theorem or_xor_cancel {x y : ℕ} (hx : x < 2 ^ 32) (hy : y < 2 ^ 32) :
    (x ||| y) ^^^ y = x &&& (y ^^^ mask32) := by
  rw [mask32_eq]
  apply Nat.eq_of_testBit_eq
  intro i
  simp only [Nat.testBit_xor, Nat.testBit_or, Nat.testBit_and,
    Nat.testBit_two_pow_sub_one]
  by_cases hi : i < 32
  · simp only [hi, decide_True]
    cases x.testBit i <;> cases y.testBit i <;> rfl
  · have hxi : x.testBit i = false :=
      Nat.testBit_lt_two_pow (lt_of_lt_of_le hx (Nat.pow_le_pow_right (by norm_num) (by omega)))
    have hyi : y.testBit i = false :=
      Nat.testBit_lt_two_pow (lt_of_lt_of_le hy (Nat.pow_le_pow_right (by norm_num) (by omega)))
    simp [hxi, hyi]

theorem xor_mask_cancel (x : ℕ) : (x ^^^ mask32) ^^^ mask32 = x := by
  rw [Nat.xor_assoc, Nat.xor_self, Nat.xor_zero]

theorem den_one_add {a b : ℚ} (ha : a.den = 1) (hb : b.den = 1) :
    a + b = ((a.num + b.num : ℤ) : ℚ) := by
  have ha' := (Rat.den_eq_one_iff a).mp ha
  have hb' := (Rat.den_eq_one_iff b).mp hb
  calc a + b = (a.num : ℚ) + (b.num : ℚ) := by rw [ha', hb']
    _ = ((a.num + b.num : ℤ) : ℚ) := by push_cast; ring

theorem and_bound (x y : ℚ) : toU32 x &&& toU32 y < 4294967296 := by
  rw [u32_eq]
  exact Nat.and_lt_two_pow _ (toU32_lt y)

theorem or_bound (x y : ℚ) : toU32 x ||| toU32 y < 4294967296 := by
  rw [u32_eq]
  exact Nat.or_lt_two_pow (toU32_lt x) (toU32_lt y)

theorem xor_bound (x y : ℚ) : toU32 x ^^^ toU32 y < 4294967296 := by
  rw [u32_eq]
  exact Nat.xor_lt_two_pow (toU32_lt x) (toU32_lt y)

theorem not_bound (x : ℚ) : toU32 x ^^^ mask32 < 4294967296 := by
  rw [u32_eq]
  exact Nat.xor_lt_two_pow (toU32_lt x) mask32_lt

theorem jsAnd_den (a b : ℚ) : (jsAnd a b).den = 1 := ofU32_den _
theorem jsOr_den (a b : ℚ) : (jsOr a b).den = 1 := ofU32_den _
theorem jsXor_den (a b : ℚ) : (jsXor a b).den = 1 := ofU32_den _
theorem jsNot_den (a : ℚ) : (jsNot a).den = 1 := ofU32_den _

theorem isInt32_spec {q : ℚ} (h : isInt32 q = true) :
    q.den = 1 ∧ -2147483648 ≤ q.num ∧ q.num < 2147483648 := by
  simp [isInt32] at h
  exact ⟨h.1.1, h.1.2, h.2⟩

theorem ofU32_toU32_of_isInt32 {q : ℚ} (h : isInt32 q = true) : ofU32 (toU32 q) = q :=
  ofU32_toU32 (isInt32_spec h).1 (isInt32_spec h).2.1 (isInt32_spec h).2.2

set_option maxHeartbeats 1000000 in
theorem mathCompose_apply {o₁ o₂ : MathOperator} {k₁ k₂ : Doc} {C : Op} {d : Doc}
    (hwf₁ : operandWf o₁ k₁ = true) (hwf₂ : operandWf o₂ k₂ = true)
    (hwt₁ : wellTyped (.MATH o₁ k₁) d = true) (hwt₂ : wellTyped (.MATH o₂ k₂) d = true)
    (hc : mathCompose o₁ k₁ o₂ k₂ = some C) :
    Op.apply C d = (mathApply o₁ k₁ d).bind (mathApply o₂ k₂) := by
  cases o₁ with
  | add =>
    obtain ⟨a, rfl⟩ := numOperandShape (Or.inl rfl) hwf₁
    cases o₂ with
    | add =>
      obtain ⟨b, rfl⟩ := numOperandShape (Or.inl rfl) hwf₂
      simp only [mathCompose, Option.some.injEq] at hc
      subst hc
      cases d <;> simp [wellTyped] at hwt₁
      rename_i q
      rw [simplify_apply (.MATH .add (.num (a + b))) rfl (.num q) rfl]
      simp [Op.apply, mathApply]
      ring
    | mult => simp [mathCompose] at hc
    | rot => simp [mathCompose] at hc
    | and => simp [mathCompose] at hc
    | or => simp [mathCompose] at hc
    | xor => simp [mathCompose] at hc
    | not => simp [mathCompose] at hc
  | mult =>
    obtain ⟨a, rfl⟩ := numOperandShape (Or.inr rfl) hwf₁
    cases o₂ with
    | mult =>
      obtain ⟨b, rfl⟩ := numOperandShape (Or.inr rfl) hwf₂
      simp only [mathCompose, Option.some.injEq] at hc
      subst hc
      cases d <;> simp [wellTyped] at hwt₁
      rename_i q
      rw [simplify_apply (.MATH .mult (.num (a * b))) rfl (.num q) rfl]
      simp [Op.apply, mathApply]
      ring
    | add => simp [mathCompose] at hc
    | rot => simp [mathCompose] at hc
    | and => simp [mathCompose] at hc
    | or => simp [mathCompose] at hc
    | xor => simp [mathCompose] at hc
    | not => simp [mathCompose] at hc
  | rot =>
    obtain ⟨a, m₁, rfl, hka, hma, hann, hmapos⟩ := rotOperandShape hwf₁
    cases o₂ with
    | rot =>
      obtain ⟨b, m₂, rfl, hkb, hmb, hbnn, hmbpos⟩ := rotOperandShape hwf₂
      by_cases hm : m₁ = m₂
      · subst hm
        simp [mathCompose] at hc
        subst hc
        cases d <;> simp [wellTyped] at hwt₁
        rename_i q
        obtain ⟨⟨hqden, hqnn⟩, hqlt⟩ := hwt₁
        have hqnn' : 0 ≤ q.num := Rat.num_nonneg.mpr hqnn
        have hab : a + b = ((a.num + b.num : ℤ) : ℚ) := den_one_add hka hkb
        have habden : (a + b).den = 1 := by
          rw [hab]
          exact Rat.den_intCast _
        have habnum : (a + b).num = a.num + b.num := by
          rw [hab]
          exact Rat.num_intCast _
        have hmne : m₁ ≠ 0 := ne_of_gt (Rat.num_pos.mp hmapos)
        have hwfC : Op.wf (.MATH .rot (.arr [.num (a + b), .num m₁])) = true := by
          simp only [Op.wf, operandWf, Bool.and_eq_true, beq_iff_eq, decide_eq_true_eq]
          refine ⟨⟨⟨habden, hma⟩, ?_⟩, hmapos⟩
          rw [habnum]
          omega
        have hwtC : wellTyped (.MATH .rot (.arr [.num (a + b), .num m₁])) (.num q) = true := by
          simp [wellTyped, hqden, hqnn, hqlt]
        rw [simplify_apply _ hwfC _ hwtC]
        simp [Op.apply, mathApply, hqden, hka, hkb, hma, hmne, habden, habnum]
        have key : ((q.num + a.num).tmod m₁.num + b.num).tmod m₁.num
            = (q.num + (a.num + b.num)).tmod m₁.num := by
          rw [add_comm ((q.num + a.num).tmod m₁.num) b.num]
          rw [tmod_absorb hbnn (by omega) hmapos]
          congr 1
          ring
        rw [key]
      · simp [mathCompose, hm] at hc
    | add => simp [mathCompose] at hc
    | mult => simp [mathCompose] at hc
    | and => simp [mathCompose] at hc
    | or => simp [mathCompose] at hc
    | xor => simp [mathCompose] at hc
    | not => simp [mathCompose] at hc
  | and =>
    rcases bitOperandShape (Or.inl rfl) hwf₁ with ⟨a, rfl, ha32⟩ | ⟨a, rfl⟩
    · cases o₂ with
      | and =>
        rcases bitOperandShape (Or.inl rfl) hwf₂ with ⟨b, rfl, hb32⟩ | ⟨b, rfl⟩
        · simp only [mathCompose, Option.some.injEq] at hc
          subst hc
          cases d <;> simp [wellTyped, isInt32] at hwt₁
          rename_i q
          obtain ⟨⟨hqden, hq1⟩, hq2⟩ := hwt₁
          have hjand : isInt32 (jsAnd a b) = true :=
            isInt32_ofU32 (and_bound a b)
          have hwfC : Op.wf (.MATH .and (.num (jsAnd a b))) = true := by
            simp [Op.wf, operandWf, hjand]
          have hwtC : wellTyped (.MATH .and (.num (jsAnd a b))) (.num q) = true := by
            simp [wellTyped, isInt32, hqden, hq1, hq2]
          rw [simplify_apply _ hwfC _ hwtC]
          simp [Op.apply, mathApply, hqden, bitArg, ofU32_den]
          rw [jsAnd_pat, toU32_ofU32 (and_bound q a), Nat.and_assoc]
        · simp [mathCompose] at hc
      | or =>
        by_cases hab : Doc.num a = k₂
        · subst hab
          simp [mathCompose] at hc
          subst hc
          cases d <;> simp [wellTyped, isInt32] at hwt₁
          rename_i q
          obtain ⟨⟨hqden, hq1⟩, hq2⟩ := hwt₁
          simp [Op.apply, mathApply, hqden, bitArg, ofU32_den]
          rw [toU32_ofU32 (and_bound q a), nat_or_and_absorb]
          exact (ofU32_toU32_of_isInt32 ha32).symm
        · simp [mathCompose, hab] at hc
      | add => simp [mathCompose] at hc
      | mult => simp [mathCompose] at hc
      | rot => simp [mathCompose] at hc
      | xor => simp [mathCompose] at hc
      | not => simp [mathCompose] at hc
    · cases o₂ with
      | and =>
        rcases bitOperandShape (Or.inl rfl) hwf₂ with ⟨b, rfl, hb32⟩ | ⟨b, rfl⟩
        · simp [mathCompose] at hc
        · simp only [mathCompose, Option.some.injEq] at hc
          subst hc
          cases d <;> simp [wellTyped] at hwt₁
          rename_i b₀
          rw [simplify_apply (.MATH .and (.bool (a && b))) rfl (.bool b₀) rfl]
          cases b₀ <;> cases a <;> cases b <;> simp [Op.apply, mathApply]
      | or =>
        by_cases hab : Doc.bool a = k₂
        · subst hab
          simp [mathCompose] at hc
          subst hc
          cases d <;> simp [wellTyped] at hwt₁
          rename_i b₀
          cases b₀ <;> cases a <;> simp [Op.apply, mathApply]
        · simp [mathCompose, hab] at hc
      | add => simp [mathCompose] at hc
      | mult => simp [mathCompose] at hc
      | rot => simp [mathCompose] at hc
      | xor => simp [mathCompose] at hc
      | not => simp [mathCompose] at hc
  | or =>
    rcases bitOperandShape (Or.inr (Or.inl rfl)) hwf₁ with ⟨a, rfl, ha32⟩ | ⟨a, rfl⟩
    · cases o₂ with
      | or =>
        rcases bitOperandShape (Or.inr (Or.inl rfl)) hwf₂ with ⟨b, rfl, hb32⟩ | ⟨b, rfl⟩
        · simp only [mathCompose, Option.some.injEq] at hc
          subst hc
          cases d <;> simp [wellTyped, isInt32] at hwt₁
          rename_i q
          obtain ⟨⟨hqden, hq1⟩, hq2⟩ := hwt₁
          have hjor : isInt32 (jsOr a b) = true :=
            isInt32_ofU32 (or_bound a b)
          have hwfC : Op.wf (.MATH .or (.num (jsOr a b))) = true := by
            simp [Op.wf, operandWf, hjor]
          have hwtC : wellTyped (.MATH .or (.num (jsOr a b))) (.num q) = true := by
            simp [wellTyped, isInt32, hqden, hq1, hq2]
          rw [simplify_apply _ hwfC _ hwtC]
          simp [Op.apply, mathApply, hqden, bitArg, ofU32_den]
          rw [jsOr_pat, toU32_ofU32 (or_bound q a), Nat.or_assoc]
        · simp [mathCompose] at hc
      | xor =>
        rcases bitOperandShape (Or.inr (Or.inr rfl)) hwf₂ with ⟨b, rfl, hb32⟩ | ⟨b, rfl⟩
        · by_cases hab : a = b
          · subst hab
            simp [mathCompose] at hc
            subst hc
            cases d <;> simp [wellTyped, isInt32] at hwt₁
            rename_i q
            obtain ⟨⟨hqden, hq1⟩, hq2⟩ := hwt₁
            simp [Op.apply, mathApply, hqden, bitArg, ofU32_den]
            rw [jsNot_pat, toU32_ofU32 (or_bound q a),
              or_xor_cancel (toU32_lt q) (toU32_lt a)]
          · simp [mathCompose, hab] at hc
        · simp [mathCompose] at hc
      | add => simp [mathCompose] at hc
      | mult => simp [mathCompose] at hc
      | rot => simp [mathCompose] at hc
      | and => simp [mathCompose] at hc
      | not => simp [mathCompose] at hc
    · cases o₂ with
      | or =>
        rcases bitOperandShape (Or.inr (Or.inl rfl)) hwf₂ with ⟨b, rfl, hb32⟩ | ⟨b, rfl⟩
        · simp [mathCompose] at hc
        · simp only [mathCompose, Option.some.injEq] at hc
          subst hc
          cases d <;> simp [wellTyped] at hwt₁
          rename_i b₀
          rw [simplify_apply (.MATH .or (.bool (a || b))) rfl (.bool b₀) rfl]
          cases b₀ <;> cases a <;> cases b <;> simp [Op.apply, mathApply]
      | xor =>
        rcases bitOperandShape (Or.inr (Or.inr rfl)) hwf₂ with ⟨b, rfl, hb32⟩ | ⟨b, rfl⟩
        · simp [mathCompose] at hc
        · by_cases hab : a = b
          · subst hab
            simp [mathCompose] at hc
            subst hc
            cases d <;> simp [wellTyped] at hwt₁
            rename_i b₀
            cases b₀ <;> cases a <;> simp [Op.apply, mathApply, bitArg]
          · simp [mathCompose, hab] at hc
      | add => simp [mathCompose] at hc
      | mult => simp [mathCompose] at hc
      | rot => simp [mathCompose] at hc
      | and => simp [mathCompose] at hc
      | not => simp [mathCompose] at hc
  | xor =>
    rcases bitOperandShape (Or.inr (Or.inr rfl)) hwf₁ with ⟨a, rfl, ha32⟩ | ⟨a, rfl⟩
    · cases o₂ with
      | xor =>
        rcases bitOperandShape (Or.inr (Or.inr rfl)) hwf₂ with ⟨b, rfl, hb32⟩ | ⟨b, rfl⟩
        · simp only [mathCompose, Option.some.injEq] at hc
          subst hc
          cases d <;> simp [wellTyped, isInt32] at hwt₁
          rename_i q
          obtain ⟨⟨hqden, hq1⟩, hq2⟩ := hwt₁
          have hjxor : isInt32 (jsXor a b) = true :=
            isInt32_ofU32 (xor_bound a b)
          have hwfC : Op.wf (.MATH .xor (.num (jsXor a b))) = true := by
            simp [Op.wf, operandWf, hjxor]
          have hwtC : wellTyped (.MATH .xor (.num (jsXor a b))) (.num q) = true := by
            simp [wellTyped, isInt32, hqden, hq1, hq2]
          rw [simplify_apply _ hwfC _ hwtC]
          simp [Op.apply, mathApply, hqden, bitArg, ofU32_den]
          rw [jsXor_pat, toU32_ofU32 (xor_bound q a), Nat.xor_assoc]
        · simp [mathCompose] at hc
      | add => simp [mathCompose] at hc
      | mult => simp [mathCompose] at hc
      | rot => simp [mathCompose] at hc
      | and => simp [mathCompose] at hc
      | or => simp [mathCompose] at hc
      | not => simp [mathCompose] at hc
    · cases o₂ with
      | xor =>
        rcases bitOperandShape (Or.inr (Or.inr rfl)) hwf₂ with ⟨b, rfl, hb32⟩ | ⟨b, rfl⟩
        · simp [mathCompose] at hc
        · simp only [mathCompose, Option.some.injEq] at hc
          subst hc
          cases d <;> simp [wellTyped] at hwt₁
          rename_i b₀
          rw [simplify_apply (.MATH .xor (.bool (a != b))) rfl (.bool b₀) rfl]
          cases b₀ <;> cases a <;> cases b <;> simp [Op.apply, mathApply, bitArg]
      | add => simp [mathCompose] at hc
      | mult => simp [mathCompose] at hc
      | rot => simp [mathCompose] at hc
      | and => simp [mathCompose] at hc
      | or => simp [mathCompose] at hc
      | not => simp [mathCompose] at hc
  | not =>
    cases o₂ with
    | not =>
      simp only [mathCompose, Option.some.injEq] at hc
      subst hc
      cases d <;> simp [wellTyped, isInt32] at hwt₁
      · rename_i q
        obtain ⟨⟨hqden, hq1⟩, hq2⟩ := hwt₁
        simp only [Op.apply, mathApply, hqden, if_true, jsNot_den, Option.some.injEq,
          Option.some_bind, reduceIte]
        simp only [jsNot]
        rw [toU32_ofU32 (not_bound q), xor_mask_cancel]
        exact congrArg Doc.num (ofU32_toU32 hqden hq1 hq2).symm
      · rename_i b₀
        simp [Op.apply, mathApply]
    | add => simp [mathCompose] at hc
    | mult => simp [mathCompose] at hc
    | rot => simp [mathCompose] at hc
    | and => simp [mathCompose] at hc
    | or => simp [mathCompose] at hc
    | xor => simp [mathCompose] at hc

theorem composeApplyMath_eq {o₁ o₂ : MathOperator} {k₁ k₂ : Doc} {d : Doc}
    (hwf₁ : operandWf o₁ k₁ = true) (hwf₂ : operandWf o₂ k₂ = true)
    (hwt₁ : wellTyped (.MATH o₁ k₁) d = true) (hwt₂ : wellTyped (.MATH o₂ k₂) d = true) :
    composeApplyMath o₁ k₁ o₂ k₂ d = (mathApply o₁ k₁ d).bind (mathApply o₂ k₂) := by
  unfold composeApplyMath
  cases hc : mathCompose o₁ k₁ o₂ k₂ with
  | none => rfl
  | some C => exact mathCompose_apply hwf₁ hwf₂ hwt₁ hwt₂ hc

/-- C3 counterexample: `SET.atomic_compose(B)` is not always defined — for
`A = SET(true)` and `B = MATH("add", 1)` (both value-layer operations),
`other.apply(this.new_value)` throws (`add` on a boolean), so the
composition throws instead of returning an operation. -/
theorem C3_set_compose_counterexample :
    Op.atomic_compose (.SET (.bool true)) (.MATH .add (.num 1)) = .error () := rfl

/-- C3 (amended): whenever `A.atomic_compose(B)` is non-null (for
well-formed operations and a document well-typed for both),
`A.atomic_compose(B).apply(d) == B.apply(A.apply(d))`; and
`SET.atomic_compose(B)` is defined and equals `Set(B.apply(v)).simplify()`
whenever `B.apply(v)` is defined on the SET's value `v`. -/
theorem C3_compose_equivalence :
    (∀ (A B C : Op) (d : Doc), A.wf = true → B.wf = true →
      wellTyped A d = true → wellTyped B d = true →
      Op.atomic_compose A B = .ok (some C) →
      Op.apply C d = (Op.apply A d).bind B.apply) ∧
    (∀ (v : Doc) (B : Op) (w : Doc), B.apply v = some w →
      Op.atomic_compose (.SET v) B = .ok (some (Op.simplify (.SET w)))) := by
  constructor
  · intro A B C d hwfA hwfB hwtA hwtB hc
    cases A with
    | NO_OP =>
      simp [Op.atomic_compose] at hc
      subst hc
      rfl
    | SET v =>
      cases hBv : Op.apply B v with
      | none => simp [Op.atomic_compose, hBv] at hc
      | some w =>
        simp [Op.atomic_compose, hBv] at hc
        subst hc
        have hss : Op.simplify (.SET w) = .SET w := rfl
        rw [hss]
        show some w = Op.apply B v
        exact hBv.symm
    | MATH o₁ k₁ =>
      cases B with
      | MATH o₂ k₂ =>
        simp [Op.atomic_compose] at hc
        exact mathCompose_apply hwfA hwfB hwtA hwtB hc
      | NO_OP => simp [Op.atomic_compose] at hc
      | SET w => simp [Op.atomic_compose] at hc
  · intro v B w hBv
    simp [Op.atomic_compose, hBv]

theorem C3_compose_equivalence_witness :
    (Op.wf (.MATH .and (.num 3)) = true ∧ Op.wf (.MATH .and (.num 5)) = true ∧
     wellTyped (.MATH .and (.num 3)) (.num 6) = true ∧
     wellTyped (.MATH .and (.num 5)) (.num 6) = true ∧
     Op.atomic_compose (.MATH .and (.num 3)) (.MATH .and (.num 5))
       = .ok (some (.MATH .and (.num 1))) ∧
     Op.apply (.MATH .and (.num 1)) (.num 6)
       = (Op.apply (.MATH .and (.num 3)) (.num 6)).bind (Op.apply (.MATH .and (.num 5)))) ∧
    (Op.apply (.SET (.num 7)) (.num 2) = some (.num 7) ∧
     Op.atomic_compose (.SET (.num 2)) (.SET (.num 7))
       = .ok (some (Op.simplify (.SET (.num 7))))) := by
  constructor
  · refine ⟨by decide, by decide, by decide, by decide, by decide, ?_⟩
    exact C3_compose_equivalence.1 (.MATH .and (.num 3)) (.MATH .and (.num 5))
      (.MATH .and (.num 1)) (.num 6) (by decide) (by decide) (by decide) (by decide)
      (by decide)
  · exact ⟨by decide, C3_compose_equivalence.2 (.num 2) (.SET (.num 7)) (.num 7) (by decide)⟩

theorem tmod_chain {q x y m : ℤ} (hx : 0 ≤ x) (hy : 0 ≤ y) (hq : 0 ≤ q) (hm : 0 < m) :
    ((q + x).tmod m + y).tmod m = (q + x + y).tmod m := by
  rw [add_comm ((q + x).tmod m) y, tmod_absorb hy (by omega) hm]
  congr 1
  ring

set_option maxHeartbeats 1000000 in
theorem math_same_op_comm {o : MathOperator} {k₁ k₂ : Doc} {d : Doc}
    (hwf₁ : operandWf o k₁ = true) (hwf₂ : operandWf o k₂ = true)
    (hwt₁ : wellTyped (.MATH o k₁) d = true) (hwt₂ : wellTyped (.MATH o k₂) d = true)
    (hrot : o = .rot → rotMod k₁ = rotMod k₂) :
    (mathApply o k₁ d).bind (mathApply o k₂) = (mathApply o k₂ d).bind (mathApply o k₁) := by
  cases o with
  | add =>
    obtain ⟨a, rfl⟩ := numOperandShape (Or.inl rfl) hwf₁
    obtain ⟨b, rfl⟩ := numOperandShape (Or.inl rfl) hwf₂
    cases d <;> simp [wellTyped] at hwt₁
    rename_i q
    simp [mathApply]
    ring
  | mult =>
    obtain ⟨a, rfl⟩ := numOperandShape (Or.inr rfl) hwf₁
    obtain ⟨b, rfl⟩ := numOperandShape (Or.inr rfl) hwf₂
    cases d <;> simp [wellTyped] at hwt₁
    rename_i q
    simp [mathApply]
    ring
  | rot =>
    obtain ⟨a, m₁, rfl, hka, hma, hann, hmapos⟩ := rotOperandShape hwf₁
    obtain ⟨b, m₂, rfl, hkb, hmb, hbnn, hmbpos⟩ := rotOperandShape hwf₂
    have hm12 : m₁ = m₂ := by
      have hr := hrot rfl
      simp [rotMod] at hr
      exact hr
    subst hm12
    cases d <;> simp [wellTyped] at hwt₁
    rename_i q
    obtain ⟨⟨hqden, hqnn⟩, hqlt⟩ := hwt₁
    have hqnn' : 0 ≤ q.num := Rat.num_nonneg.mpr hqnn
    have hmne : m₁ ≠ 0 := ne_of_gt (Rat.num_pos.mp hmapos)
    simp [mathApply, hqden, hka, hkb, hma, hmne]
    rw [tmod_chain hann hbnn hqnn' hmapos, tmod_chain hbnn hann hqnn' hmapos]
    have hcomm : q.num + a.num + b.num = q.num + b.num + a.num := by ring
    rw [hcomm]
  | and =>
    rcases bitOperandShape (Or.inl rfl) hwf₁ with ⟨a, rfl, ha32⟩ | ⟨a, rfl⟩ <;>
      rcases bitOperandShape (Or.inl rfl) hwf₂ with ⟨b, rfl, hb32⟩ | ⟨b, rfl⟩ <;>
      cases d <;> simp [wellTyped] at hwt₁ hwt₂
    · rename_i q
      have hqden := (isInt32_spec hwt₁).1
      simp [mathApply, hqden, bitArg, ofU32_den]
      rw [toU32_ofU32 (and_bound q a), toU32_ofU32 (and_bound q b),
        Nat.and_assoc, Nat.and_assoc, Nat.and_comm (toU32 a) (toU32 b)]
    · rename_i b₀
      cases b₀ <;> cases a <;> cases b <;> simp [mathApply]
  | or =>
    rcases bitOperandShape (Or.inr (Or.inl rfl)) hwf₁ with ⟨a, rfl, ha32⟩ | ⟨a, rfl⟩ <;>
      rcases bitOperandShape (Or.inr (Or.inl rfl)) hwf₂ with ⟨b, rfl, hb32⟩ | ⟨b, rfl⟩ <;>
      cases d <;> simp [wellTyped] at hwt₁ hwt₂
    · rename_i q
      have hqden := (isInt32_spec hwt₁).1
      simp [mathApply, hqden, bitArg, ofU32_den]
      rw [toU32_ofU32 (or_bound q a), toU32_ofU32 (or_bound q b),
        Nat.or_assoc, Nat.or_assoc, Nat.or_comm (toU32 a) (toU32 b)]
    · rename_i b₀
      cases b₀ <;> cases a <;> cases b <;> simp [mathApply]
  | xor =>
    rcases bitOperandShape (Or.inr (Or.inr rfl)) hwf₁ with ⟨a, rfl, ha32⟩ | ⟨a, rfl⟩ <;>
      rcases bitOperandShape (Or.inr (Or.inr rfl)) hwf₂ with ⟨b, rfl, hb32⟩ | ⟨b, rfl⟩ <;>
      cases d <;> simp [wellTyped] at hwt₁ hwt₂
    · rename_i q
      have hqden := (isInt32_spec hwt₁).1
      simp [mathApply, hqden, bitArg, ofU32_den]
      rw [toU32_ofU32 (xor_bound q a), toU32_ofU32 (xor_bound q b),
        Nat.xor_assoc, Nat.xor_assoc, Nat.xor_comm (toU32 a) (toU32 b)]
    · rename_i b₀
      cases b₀ <;> cases a <;> cases b <;> simp [mathApply, bitArg]
  | not =>
    cases d <;> simp [wellTyped] at hwt₁
    · rename_i q
      have hqden := (isInt32_spec hwt₁).1
      simp [mathApply, hqden, jsNot_den]
    · rename_i b₀
      simp [mathApply]

/-- C1 counterexample: for the well-formed operations `A = MATH("add", 1/2)`
and `B = MATH("xor", 3)` and the document `4` (well-typed for both), both
conflictless rebases throw: the lower side is rebased to
`SET(A.compose(B).apply(4))`, and that application throws because `4 + 1/2`
is not an integer.  So the two rebases are not both defined. -/
theorem C1_diamond_counterexample :
    Op.wf (.MATH .add (.num (1 / 2))) = true ∧
    Op.wf (.MATH .xor (.num 3)) = true ∧
    wellTyped (.MATH .add (.num (1 / 2))) (.num 4) = true ∧
    wellTyped (.MATH .xor (.num 3)) (.num 4) = true ∧
    rebase (.MATH .add (.num (1 / 2))) (.MATH .xor (.num 3)) (.withDoc (.num 4))
      = .error () ∧
    rebase (.MATH .xor (.num 3)) (.MATH .add (.num (1 / 2))) (.withDoc (.num 4))
      = .error () := by
  have hden1 : ¬((4 : ℚ) + 2⁻¹).den = 1 := by norm_num
  refine ⟨rfl, by decide, rfl, by decide, ?_, ?_⟩ <;>
    simp [rebase, mathRebaseMath, cmpMathKey, cmpLin, MathOperator.rank,
      composeApplyMath, mathCompose, mathApply, Cfl.doc?, hden1]

theorem apply_noop (d : Doc) : Op.apply .NO_OP d = some d := rfl

theorem apply_set (v d : Doc) : Op.apply (.SET v) d = some v := rfl

theorem apply_math (o : MathOperator) (k d : Doc) :
    Op.apply (.MATH o k) d = mathApply o k d := rfl

set_option maxHeartbeats 2000000 in
/-- C1 (amended): for all well-formed value-layer operations `A`, `B` and
every document `d` well-typed for both, provided the two sequential
compositions `A;B` and `B;A` are both defined on `d` (the conflictless
rebase itself computes `A.compose(B).apply(d)` and throws otherwise), the
conflictless rebases with pre-state `d` are both defined and satisfy the
TP1 diamond: applying `A` then `B.rebase(A)` equals applying `B` then
`A.rebase(B)`, and the common result is defined. -/
theorem C1_conflictless_diamond (A B : Op) (hwfA : A.wf = true) (hwfB : B.wf = true)
    (d : Doc) (hwtA : wellTyped A d = true) (hwtB : wellTyped B d = true)
    (hAB : ((Op.apply A d).bind B.apply).isSome = true)
    (hBA : ((Op.apply B d).bind A.apply).isSome = true) :
    ∃ A' B', rebase A B (.withDoc d) = .ok (some A') ∧
      rebase B A (.withDoc d) = .ok (some B') ∧
      (Op.apply A d).bind B'.apply = (Op.apply B d).bind A'.apply ∧
      ((Op.apply A d).bind B'.apply).isSome = true := by
  cases A with
  | NO_OP =>
    refine ⟨.NO_OP, B, by cases B <;> rfl, by cases B <;> rfl, ?_, hAB⟩
    rw [apply_noop, Option.some_bind]
    cases h : Op.apply B d with
    | none => rfl
    | some x => rfl
  | SET v =>
    cases B with
    | NO_OP =>
      exact ⟨.SET v, .NO_OP, rfl, rfl, rfl, rfl⟩
    | SET w =>
      by_cases hvw : v = w
      · subst hvw
        have hb : Doc.beq v v = true := (Doc.beq_iff v v).mpr rfl
        refine ⟨.NO_OP, .NO_OP, ?_, ?_, rfl, rfl⟩
        · simp [rebase, setRebaseSet, hb]
        · simp [rebase, setRebaseSet, hb]
      · have hb : Doc.beq v w = false := by
          rw [← Bool.not_eq_true]
          simp [Doc.beq_iff, hvw]
        have hb2 : Doc.beq w v = false := by
          rw [← Bool.not_eq_true]
          simp [Doc.beq_iff, Ne.symm hvw]
        by_cases hlt : cmpDoc v w = .lt
        · refine ⟨.NO_OP, .SET w, ?_, ?_, rfl, rfl⟩
          · simp [rebase, setRebaseSet, hb, hlt, Cfl.truthy]
          · simp [rebase, setRebaseSet, hb2, hb, hlt, cmpDoc_gt_of_lt hlt, Cfl.truthy]
        · have hlt2 : cmpDoc w v = .lt := cmpDoc_lt_of_not_lt_of_ne hvw hlt
          refine ⟨.SET v, .NO_OP, ?_, ?_, rfl, rfl⟩
          · simp [rebase, setRebaseSet, hb, hb2, hlt, hlt2, Cfl.truthy]
          · simp [rebase, setRebaseSet, hb2, hlt2, Cfl.truthy]
    | MATH o k =>
      obtain ⟨x, hx⟩ : ∃ x, Op.apply (.MATH o k) d = some x := by
        cases h : Op.apply (.MATH o k) d with
        | none =>
          rw [h] at hBA
          simp at hBA
        | some x => exact ⟨x, rfl⟩
      refine ⟨.SET v, .NO_OP, rfl, rfl, ?_, rfl⟩
      rw [hx]
      rfl
  | MATH o₁ k₁ =>
    cases B with
    | NO_OP =>
      refine ⟨.MATH o₁ k₁, .NO_OP, rfl, rfl, ?_, hAB⟩
      rw [apply_noop, Option.some_bind]
      cases h : Op.apply (.MATH o₁ k₁) d with
      | none => rfl
      | some x => rfl
    | SET w =>
      obtain ⟨x, hx⟩ : ∃ x, Op.apply (.MATH o₁ k₁) d = some x := by
        cases h : Op.apply (.MATH o₁ k₁) d with
        | none =>
          rw [h] at hAB
          simp at hAB
        | some x => exact ⟨x, rfl⟩
      refine ⟨.NO_OP, .SET w, rfl, rfl, ?_, ?_⟩
      · rw [hx]
        rfl
      · rw [hx]
        rfl
    | MATH o₂ k₂ =>
      by_cases hsame : o₁ = o₂ ∧ (o₁ ≠ MathOperator.rot ∨ rotMod k₁ = rotMod k₂)
      · obtain ⟨ho, hr⟩ := hsame
        subst ho
        have hr2 : o₁ ≠ MathOperator.rot ∨ rotMod k₂ = rotMod k₁ := by
          rcases hr with h | h
          · exact Or.inl h
          · exact Or.inr h.symm
        have h1 : mathRebaseMath o₁ k₁ o₁ k₂ (.withDoc d)
            = .ok (some (.MATH o₁ k₁, .MATH o₁ k₂)) := by
          unfold mathRebaseMath
          rw [if_pos ⟨rfl, hr⟩]
        have h2 : mathRebaseMath o₁ k₂ o₁ k₁ (.withDoc d)
            = .ok (some (.MATH o₁ k₂, .MATH o₁ k₁)) := by
          unfold mathRebaseMath
          rw [if_pos ⟨rfl, hr2⟩]
        refine ⟨.MATH o₁ k₁, .MATH o₁ k₂, ?_, ?_, ?_, hAB⟩
        · simp [rebase, h1]
        · simp [rebase, h2]
        · exact math_same_op_comm hwfA hwfB hwtA hwtB
            (fun h => hr.resolve_left (fun hne => hne h))
      · have hsame2 : ¬(o₂ = o₁ ∧ (o₂ ≠ MathOperator.rot ∨ rotMod k₂ = rotMod k₁)) := by
          rintro ⟨h1, h2⟩
          subst h1
          rcases h2 with h | h
          · exact hsame ⟨rfl, Or.inl h⟩
          · exact hsame ⟨rfl, Or.inr h.symm⟩
        obtain ⟨a1, ha1⟩ : ∃ x, Op.apply (.MATH o₁ k₁) d = some x := by
          cases h : Op.apply (.MATH o₁ k₁) d with
          | none =>
            rw [h] at hAB
            simp at hAB
          | some x => exact ⟨x, rfl⟩
        obtain ⟨b1, hb1⟩ : ∃ x, Op.apply (.MATH o₂ k₂) d = some x := by
          cases h : Op.apply (.MATH o₂ k₂) d with
          | none =>
            rw [h] at hBA
            simp at hBA
          | some x => exact ⟨x, rfl⟩
        obtain ⟨ab, hab⟩ := Option.isSome_iff_exists.mp hAB
        obtain ⟨ba, hba⟩ := Option.isSome_iff_exists.mp hBA
        have hcomp : composeApplyMath o₁ k₁ o₂ k₂ d = some ab := by
          rw [composeApplyMath_eq hwfA hwfB hwtA hwtB]
          exact hab
        have hcomp2 : composeApplyMath o₂ k₂ o₁ k₁ d = some ba := by
          rw [composeApplyMath_eq hwfB hwfA hwtB hwtA]
          exact hba
        have hne_eq : cmpMathKey (o₁, k₁) (o₂, k₂) ≠ .eq := by
          intro h
          have h2 := cmpMathKey_eq_iff.mp h
          have ho : o₁ = o₂ := congrArg Prod.fst h2
          have hk : k₁ = k₂ := congrArg Prod.snd h2
          exact hsame ⟨ho, Or.inr (by rw [hk])⟩
        cases hcmp : cmpMathKey (o₁, k₁) (o₂, k₂) with
        | eq => exact absurd hcmp hne_eq
        | lt =>
          have hA' : mathRebaseMath o₁ k₁ o₂ k₂ (.withDoc d)
              = .ok (some (.SET ab, .MATH o₂ k₂)) := by
            unfold mathRebaseMath
            rw [if_neg hsame]
            simp [Cfl.doc?, hcmp, hcomp]
          have hB' : mathRebaseMath o₂ k₂ o₁ k₁ (.withDoc d) = .ok none := by
            unfold mathRebaseMath
            rw [if_neg hsame2]
            simp [Cfl.doc?, cmpMathKey_gt_of_lt hcmp]
          refine ⟨.SET ab, .MATH o₂ k₂, ?_, ?_, ?_, ?_⟩
          · simp [rebase, hA']
          · simp [rebase, hB', hA']
          · rw [hab, hb1]
            rfl
          · rw [hab]
            rfl
        | gt =>
          have hlt2 : cmpMathKey (o₂, k₂) (o₁, k₁) = .lt := by
            have hsw := cmpMathKey_swap (o₁, k₁) (o₂, k₂)
            rw [hcmp] at hsw
            simpa [Ordering.swap] using hsw
          have hA' : mathRebaseMath o₁ k₁ o₂ k₂ (.withDoc d) = .ok none := by
            unfold mathRebaseMath
            rw [if_neg hsame]
            simp [Cfl.doc?, hcmp]
          have hB' : mathRebaseMath o₂ k₂ o₁ k₁ (.withDoc d)
              = .ok (some (.SET ba, .MATH o₁ k₁)) := by
            unfold mathRebaseMath
            rw [if_neg hsame2]
            simp [Cfl.doc?, hlt2, hcomp2]
          refine ⟨.MATH o₁ k₁, .SET ba, ?_, ?_, ?_, ?_⟩
          · simp [rebase, hA', hB']
          · simp [rebase, hB']
          · rw [hba, ha1]
            rfl
          · rw [ha1]
            rfl

theorem C1_conflictless_diamond_witness :
    Op.wf (.MATH .and (.num 1)) = true ∧ Op.wf (.MATH .xor (.num 2)) = true ∧
    wellTyped (.MATH .and (.num 1)) (.num 3) = true ∧
    wellTyped (.MATH .xor (.num 2)) (.num 3) = true ∧
    ((Op.apply (.MATH .and (.num 1)) (.num 3)).bind
      (Op.apply (.MATH .xor (.num 2)))).isSome = true ∧
    ((Op.apply (.MATH .xor (.num 2)) (.num 3)).bind
      (Op.apply (.MATH .and (.num 1)))).isSome = true ∧
    ∃ A' B',
      rebase (.MATH .and (.num 1)) (.MATH .xor (.num 2)) (.withDoc (.num 3))
        = .ok (some A') ∧
      rebase (.MATH .xor (.num 2)) (.MATH .and (.num 1)) (.withDoc (.num 3))
        = .ok (some B') ∧
      (Op.apply (.MATH .and (.num 1)) (.num 3)).bind B'.apply
        = (Op.apply (.MATH .xor (.num 2)) (.num 3)).bind A'.apply ∧
      ((Op.apply (.MATH .and (.num 1)) (.num 3)).bind B'.apply).isSome = true :=
  ⟨by decide, by decide, by decide, by decide, by decide, by decide,
    C1_conflictless_diamond (.MATH .and (.num 1)) (.MATH .xor (.num 2)) (by decide)
      (by decide) (.num 3) (by decide) (by decide) (by decide) (by decide)⟩
